import Mathlib

/-!
Verification of the LUKE model implementation
(`paddlenlp/transformers/luke/modeling.py`).

The module is a pure tensor-algebra model definition: linear projections,
reshapes, concatenations, softmax, layer normalization.  We embed it
shallowly in Lean:

* `PTensor` models a paddle tensor of arbitrary rank as a shape together
  with a total indexing function over row-major multi-indices; the index
  manipulation helper `paddle_gather` (source lines 41-59) is translated
  operation by operation (`flatten`, `arange`, `reshape`, `expand`,
  `stack`, `transpose`, `gather_nd`).
* The attention / embedding / encoder stack is embedded as functions over
  `Fin`-indexed real-valued arrays, one Lean definition per source
  statement.  Floating point is idealized as `ℝ`; `nn.Dropout` is modelled
  as the identity (its inference-mode semantics, the only deterministic
  one).
-/

namespace LukeProof

/-! ## Row-major multi-index arithmetic -/

/-- Row-major linearization of a multi-index `l` with respect to shape `s`
(the order used by paddle's `flatten` / `reshape`). -/
def encodeIdx : List Nat → List Nat → Nat
  | [], _ => 0
  | _ :: ss, l => l.headD 0 * ss.prod + encodeIdx ss l.tail

/-- Inverse of `encodeIdx`: recover the row-major multi-index of a flat
offset `n` with respect to shape `s`. -/
def decodeIdx : List Nat → Nat → List Nat
  | [], _ => []
  | _ :: ss, n => n / ss.prod :: decodeIdx ss (n % ss.prod)

/-- A multi-index is valid for a shape when it has the same rank and every
coordinate is below the corresponding extent. -/
def validIdx (s l : List Nat) : Prop :=
  l.length = s.length ∧ ∀ p ∈ List.zip l s, p.1 < p.2

instance (s l : List Nat) : Decidable (validIdx s l) := by
  unfold validIdx; infer_instance

theorem encodeIdx_lt_prod {s l : List Nat} (h : validIdx s l) :
    encodeIdx s l < s.prod := by
  induction s generalizing l with
  | nil => simp [encodeIdx]
  | cons a ss ih =>
    obtain ⟨hlen, hb⟩ := h
    cases l with
    | nil => simp at hlen
    | cons i is =>
      have hi : i < a := hb (i, a) (by simp)
      have hrec : encodeIdx ss is < ss.prod := by
        refine ih ⟨by simpa using hlen, ?_⟩
        intro p hp
        exact hb p (by simp [hp])
      have : i * ss.prod + encodeIdx ss is < (i + 1) * ss.prod := by
        have := hrec; nlinarith
      calc encodeIdx (a :: ss) (i :: is)
          = i * ss.prod + encodeIdx ss is := by simp [encodeIdx]
        _ < (i + 1) * ss.prod := this
        _ ≤ a * ss.prod := Nat.mul_le_mul_right _ hi
        _ = (a :: ss).prod := by simp [List.prod_cons]

theorem decodeIdx_encodeIdx {s l : List Nat} (h : validIdx s l) :
    decodeIdx s (encodeIdx s l) = l := by
  induction s generalizing l with
  | nil =>
    obtain ⟨hlen, _⟩ := h
    cases l with
    | nil => simp [decodeIdx]
    | cons i is => simp at hlen
  | cons a ss ih =>
    obtain ⟨hlen, hb⟩ := h
    cases l with
    | nil => simp at hlen
    | cons i is =>
      have hvalid : validIdx ss is := by
        refine ⟨by simpa using hlen, ?_⟩
        intro p hp; exact hb p (by simp [hp])
      have hrec := encodeIdx_lt_prod hvalid
      have hpos : 0 < ss.prod := Nat.pos_of_ne_zero (by intro h0; omega)
      have henc : encodeIdx (a :: ss) (i :: is) = i * ss.prod + encodeIdx ss is := by
        simp [encodeIdx]
      have hdiv : (i * ss.prod + encodeIdx ss is) / ss.prod = i := by
        rw [Nat.mul_comm i ss.prod, Nat.mul_add_div hpos, Nat.div_eq_of_lt hrec]
        omega
      have hmod : (i * ss.prod + encodeIdx ss is) % ss.prod = encodeIdx ss is := by
        rw [Nat.mul_comm i ss.prod, Nat.mul_add_mod, Nat.mod_eq_of_lt hrec]
      simp [decodeIdx, henc, hdiv, hmod, ih hvalid]

/-! ## PTensor: a paddle tensor as shape plus total indexing function -/

/-- A paddle tensor: a shape together with an entry function over row-major
multi-indices (entries outside the valid range are junk). -/
structure PTensor (α : Type) where
  shape : List Nat
  entry : List Nat → α

/-- Translation of `paddle.reshape`: the data (in row-major order) is kept,
only the shape changes. -/
def reshapeT {α : Type} (t : PTensor α) (ns : List Nat) : PTensor α :=
  ⟨ns, fun l => t.entry (decodeIdx t.shape (encodeIdx ns l))⟩

/-- Translation of `Tensor.flatten()`: reshape to rank 1. -/
def flattenT {α : Type} (t : PTensor α) : PTensor α :=
  reshapeT t [t.shape.prod]

/-- Translation of `paddle.arange(n)`. -/
def arangeT (n : Nat) : PTensor Nat :=
  ⟨[n], fun l => l.headD 0⟩

/-- Translation of `paddle.expand`: broadcast a tensor to a larger shape;
axes of extent 1 are repeated (reading coordinate `i` on a source axis of
extent `s` reads source coordinate `i % s`, which is `i` when the extents
agree and `0` on a broadcast axis). -/
def expandT {α : Type} (t : PTensor α) (ns : List Nat) : PTensor α :=
  ⟨ns, fun l => t.entry (List.zipWith (fun s i => i % s) t.shape l)⟩

/-- Translation of `paddle.stack` on a list of tensors (new leading axis). -/
def stackT (ts : List (PTensor Nat)) : PTensor Nat :=
  ⟨ts.length :: ((ts.head?.map PTensor.shape).getD []),
   fun l => (ts.getD (l.headD 0) ⟨[], fun _ => 0⟩).entry l.tail⟩

/-- Translation of `paddle.transpose(t, [1, 0])` on a rank-2 tensor. -/
def transpose10 {α : Type} (t : PTensor α) : PTensor α :=
  ⟨[t.shape.getD 1 0, t.shape.getD 0 0],
   fun l => t.entry [l.getD 1 0, l.getD 0 0]⟩

/-- Translation of `paddle.gather_nd x ind` where the last axis of `ind`
indexes full coordinates of `x`: the output drops that axis and each entry
reads `x` at the multi-index stored along it. -/
def gatherNdT {α : Type} (x : PTensor α) (ind : PTensor Nat) : PTensor α :=
  ⟨ind.shape.dropLast,
   fun l => x.entry ((List.range (ind.shape.getLast?.getD 0)).map
     (fun k => ind.entry (l ++ [k])))⟩

/-- Translation of `paddle_gather` (source lines 41-59), statement by
statement: flatten the index, build one flat coordinate tensor per axis
(`arange`-reshape-expand-flatten off the gather axis, the flattened index on
it), stack and transpose them into `gather_nd` coordinates, gather, and
reshape back to the index shape. -/
def paddle_gather {α : Type} (x : PTensor α) (dim : Int) (index : PTensor Nat) :
    PTensor α :=
  let index_shape := index.shape
  let index_flatten := flattenT index
  let d : Nat := (if dim < 0 then (x.shape.length : Int) + dim else dim).toNat
  let nd_index : List (PTensor Nat) :=
    (List.range x.shape.length).map (fun k =>
      if k = d then index_flatten
      else
        let reshape_shape :=
          (List.range x.shape.length).map (fun j => if j = k then x.shape.getD k 0 else 1)
        let x_arange := arangeT (x.shape.getD k 0)
        flattenT (expandT (reshapeT x_arange reshape_shape) index_shape))
  let ind2 := transpose10 (stackT nd_index)
  reshapeT (gatherNdT x ind2) index_shape

/-! ## Characterization of `paddle_gather` -/

theorem encodeIdx_nil_idx (rs : List Nat) : encodeIdx rs [] = 0 := by
  induction rs with
  | nil => simp [encodeIdx]
  | cons s ss ih => simp [encodeIdx, ih]

theorem encodeIdx_zip_ones (rs l : List Nat) (h1 : ∀ x ∈ rs, x = 1) :
    encodeIdx rs (List.zipWith (fun s i => i % s) rs l) = 0 := by
  induction rs generalizing l with
  | nil => simp [encodeIdx]
  | cons s ss ih =>
    cases l with
    | nil => simpa using encodeIdx_nil_idx (s :: ss)
    | cons a l' =>
      have hs : s = 1 := h1 s (by simp)
      have hrest := ih l' (fun x hx => h1 x (by simp [hx]))
      simp [encodeIdx, hs, hrest, Nat.mod_one]

theorem getD_ones_of_forall_getD {rs : List Nat} (h : ∀ j, rs.getD j 1 = 1) :
    ∀ x ∈ rs, x = 1 := by
  intro x hx
  obtain ⟨i, hi, rfl⟩ := List.mem_iff_getElem.mp hx
  have := h i
  rwa [List.getD_eq_getElem?_getD, List.getElem?_eq_getElem hi, Option.getD_some] at this

theorem encodeIdx_zip_onehot :
    ∀ (rs l : List Nat) (k m : Nat), rs.getD k 1 = m →
      (∀ j, j ≠ k → rs.getD j 1 = 1) → k < rs.length → rs.length ≤ l.length →
      encodeIdx rs (List.zipWith (fun s i => i % s) rs l) = l.getD k 0 % m := by
  intro rs
  induction rs with
  | nil => intro l k m _ _ hk; simp at hk
  | cons s ss ih =>
    intro l k m hm hones hk hlen
    cases l with
    | nil => simp at hlen
    | cons a l' =>
      cases k with
      | zero =>
        have hms : s = m := by simpa [List.getD] using hm
        have hss : ∀ x ∈ ss, x = 1 := by
          refine getD_ones_of_forall_getD ?_
          intro j
          have := hones (j + 1) (by omega)
          simpa [List.getD] using this
        have hprod : ss.prod = 1 := List.prod_eq_one hss
        have hrest := encodeIdx_zip_ones ss l' hss
        simp [encodeIdx, hprod, hrest, hms]
      | succ k' =>
        have hs1 : s = 1 := by simpa [List.getD] using hones 0 (by omega)
        have hrec := ih l' k' m (by simpa [List.getD] using hm)
          (fun j hj => by simpa [List.getD] using hones (j + 1) (by omega))
          (by simpa using hk) (by simpa using hlen)
        simp [encodeIdx, hs1, hrec, List.getD, Nat.mod_one]

theorem getD_map_range {α : Type} (f : Nat → α) {r k : Nat} (hk : k < r) (d : α) :
    ((List.range r).map f).getD k d = f k := by
  rw [List.getD_eq_getElem?_getD, List.getElem?_map]
  simp [List.getElem?_range hk]

/-- Entry-level characterization of `paddle_gather`: given an index tensor of
the same rank as `x` whose shape agrees with `x`'s shape on every axis other
than the (normalized) gather axis up to broadcasting, the output has the shape
of the index tensor, and its entry at a valid multi-index `l` is the entry of
`x` at the multi-index obtained from `l` by replacing the coordinate on the
gather axis with `index.entry l` (each remaining coordinate is reduced
`% x.shape`, the broadcast reading: on axes where the shapes agree exactly this
is the identity, on broadcast axes of extent 1 it reads coordinate 0). -/
theorem paddle_gather_entry {α : Type} (x : PTensor α) (dim : Int) (index : PTensor Nat)
    (d : Nat) (hdd : d = (if dim < 0 then (x.shape.length : Int) + dim else dim).toNat)
    (hrank : index.shape.length = x.shape.length)
    (hd : d < x.shape.length)
    {l : List Nat} (hl : validIdx index.shape l) :
    (paddle_gather x dim index).shape = index.shape ∧
    (paddle_gather x dim index).entry l =
      x.entry ((List.range x.shape.length).map (fun k =>
        if k = d then index.entry l else l.getD k 0 % x.shape.getD k 0)) := by
  subst hdd
  refine ⟨rfl, ?_⟩
  set d := (if dim < 0 then (x.shape.length : Int) + dim else dim).toNat with hddef
  have hr : 0 < x.shape.length := Nat.lt_of_le_of_lt (Nat.zero_le d) hd
  set r := x.shape.length with hrdef
  set N := index.shape.prod with hNdef
  set n := encodeIdx index.shape l with hndef
  set f : Nat → PTensor Nat := fun k =>
    if k = d then flattenT index
    else flattenT (expandT (reshapeT (arangeT (x.shape.getD k 0))
      ((List.range r).map (fun j => if j = k then x.shape.getD k 0 else 1)))
      index.shape) with hfdef
  set ndlist := (List.range r).map f with hndldef
  set ind2 := transpose10 (stackT ndlist) with hind2def
  -- every flat coordinate tensor has shape [N]
  have hshape_nd : ∀ k, (f k).shape = [N] := by
    intro k
    by_cases hkd : k = d <;>
      simp [hfdef, hkd, flattenT, reshapeT, expandT, arangeT, hNdef]
  have hdec1 : ∀ m : Nat, decodeIdx [m] n = [n] := by
    intro m; simp [decodeIdx]
  have hdecl : decodeIdx index.shape n = l := decodeIdx_encodeIdx hl
  have hllen : l.length = r := by have h := hl.1; omega
  -- shapes of the stacked and transposed coordinate tensor
  have hstackshape : (stackT ndlist).shape = [r, N] := by
    have hhead : ndlist.head? = some (f 0) := by
      rw [hndldef, List.head?_map, List.head?_eq_getElem?, List.getElem?_range hr]
      rfl
    simp [stackT, hhead, hshape_nd 0, hndldef]
  have hind2shape : ind2.shape = [N, r] := by
    simp [hind2def, transpose10, hstackshape, List.getD]
  have hgshape : (gatherNdT x ind2).shape = [N] := by
    simp [gatherNdT, hind2shape]
  have hglast : ind2.shape.getLast?.getD 0 = r := by
    rw [hind2shape]; rfl
  -- the value stored for axis k at flat position n
  have key : ∀ k, k < r → ind2.entry [n, k]
      = (if k = d then index.entry l else l.getD k 0 % x.shape.getD k 0) := by
    intro k hk
    have h1 : ind2.entry [n, k] = (ndlist.getD k ⟨[], fun _ => 0⟩).entry [n] := by
      simp [hind2def, transpose10, stackT, List.getD]
    have h2 : ndlist.getD k ⟨[], fun _ => 0⟩ = f k := by
      rw [hndldef]; exact getD_map_range f hk _
    rw [h1, h2]
    by_cases hkd : k = d
    · have : (flattenT index).entry [n] = index.entry l := by
        simp [flattenT, reshapeT, encodeIdx, hdecl]
      simp [hfdef, hkd, this]
    · set m := x.shape.getD k 0 with hmdef
      set rs := (List.range r).map (fun j => if j = k then m else 1) with hrsdef
      have hE : (flattenT (expandT (reshapeT (arangeT m) rs) index.shape)).entry [n]
          = (expandT (reshapeT (arangeT m) rs) index.shape).entry l := by
        simp [flattenT, reshapeT, expandT, encodeIdx, hdecl]
      have hzip : (expandT (reshapeT (arangeT m) rs) index.shape).entry l
          = (arangeT m).entry (decodeIdx [m]
              (encodeIdx rs (List.zipWith (fun s i => i % s) rs l))) := by
        simp [expandT, reshapeT, arangeT]
      have honehot : encodeIdx rs (List.zipWith (fun s i => i % s) rs l)
          = l.getD k 0 % m := by
        refine encodeIdx_zip_onehot rs l k m ?_ ?_ ?_ ?_
        · rw [hrsdef, getD_map_range _ hk]; simp
        · intro j hj
          by_cases hjr : j < r
          · rw [hrsdef, getD_map_range _ hjr]; simp [hj]
          · rw [hrsdef]
            apply List.getD_eq_default
            simpa using hjr
        · simp [hrsdef, hk]
        · simp [hrsdef, hllen]
      have harange : (arangeT m).entry (decodeIdx [m] (l.getD k 0 % m))
          = l.getD k 0 % m := by
        simp [arangeT, decodeIdx]
      simp only [hfdef, if_neg hkd, ← hmdef, ← hrsdef, hE, hzip, honehot, harange]
  -- assemble
  calc (paddle_gather x dim index).entry l
      = (gatherNdT x ind2).entry (decodeIdx (gatherNdT x ind2).shape n) := rfl
    _ = (gatherNdT x ind2).entry [n] := by rw [hgshape, hdec1]
    _ = x.entry ((List.range (ind2.shape.getLast?.getD 0)).map
          (fun k => ind2.entry ([n] ++ [k]))) := rfl
    _ = x.entry ((List.range r).map (fun k => ind2.entry [n, k])) := by rw [hglast]; rfl
    _ = x.entry ((List.range r).map (fun k =>
          if k = d then index.entry l else l.getD k 0 % x.shape.getD k 0)) := by
        refine congrArg x.entry (List.map_congr_left ?_)
        intro k hk
        exact key k (List.mem_range.mp hk)

theorem validIdx_getD_lt {s l : List Nat} (h : validIdx s l) {k : Nat}
    (hk : k < l.length) : l.getD k 0 < s.getD k 0 := by
  obtain ⟨hlen, hb⟩ := h
  have hk2 : k < s.length := by omega
  have h1 : l.getD k 0 = l[k] := by
    rw [List.getD_eq_getElem?_getD, List.getElem?_eq_getElem hk, Option.getD_some]
  have h2 : s.getD k 0 = s[k] := by
    rw [List.getD_eq_getElem?_getD, List.getElem?_eq_getElem hk2, Option.getD_some]
  have hk3 : k < (l.zip s).length := by
    rw [List.length_zip]; omega
  have hzip : (l.zip s)[k] = (l[k], s[k]) := List.getElem_zip
  have hmem : (l[k], s[k]) ∈ l.zip s := by
    rw [← hzip]; exact List.getElem_mem hk3
  rw [h1, h2]
  exact hb _ hmem

/-- Claim C2: for every tensor `x`, dimension `dim` (negative values counted
from the last axis, normalizing to `d`), and index tensor of the same rank
whose entries are valid indices into `x` along `d` and whose shape agrees with
`x`'s shape on every other axis up to broadcasting, `paddle_gather x dim index`
returns a tensor of exactly the shape of `index` whose entry at a (valid)
multi-index equals the entry of `x` at the same multi-index with the
coordinate at position `d` replaced by the corresponding entry of `index`.
The second conjunct states this with the remaining coordinates broadcast onto
`x`'s shape (reduced `% x.shape`, the identity wherever the extents agree and
coordinate `0` on broadcast axes of extent 1); the third conjunct specializes
to exact shape agreement on the other axes, where the output entry reads `x`
at literally the same remaining coordinates. -/
theorem c2_paddle_gather_correct {α : Type} (x : PTensor α) (dim : Int)
    (index : PTensor Nat) (d : Nat)
    (hdd : d = (if dim < 0 then (x.shape.length : Int) + dim else dim).toNat)
    (hrank : index.shape.length = x.shape.length)
    (hd : d < x.shape.length)
    (hcompat : ∀ k, k < x.shape.length → k ≠ d →
      index.shape.getD k 0 = x.shape.getD k 0 ∨ x.shape.getD k 0 = 1)
    (hvalid : ∀ l, validIdx index.shape l → index.entry l < x.shape.getD d 0)
    {l : List Nat} (hl : validIdx index.shape l) :
    (paddle_gather x dim index).shape = index.shape ∧
    (paddle_gather x dim index).entry l =
      x.entry ((List.range x.shape.length).map (fun k =>
        if k = d then index.entry l else l.getD k 0 % x.shape.getD k 0)) ∧
    ((∀ k, k < x.shape.length → k ≠ d → index.shape.getD k 0 = x.shape.getD k 0) →
      (paddle_gather x dim index).entry l =
        x.entry ((List.range x.shape.length).map (fun k =>
          if k = d then index.entry l else l.getD k 0))) := by
  obtain ⟨hsh, hent⟩ := paddle_gather_entry x dim index d hdd hrank hd hl
  refine ⟨hsh, hent, fun hexact => ?_⟩
  rw [hent]
  refine congrArg x.entry (List.map_congr_left ?_)
  intro k hk
  have hk2 : k < x.shape.length := List.mem_range.mp hk
  by_cases hkd : k = d
  · simp [hkd]
  · have hklt : l.getD k 0 < index.shape.getD k 0 := by
      have hkl : k < l.length := by
        have := hl.1; omega
      exact validIdx_getD_lt hl hkl
    rw [if_neg hkd, if_neg hkd, Nat.mod_eq_of_lt (by rw [← hexact k hk2 hkd]; exact hklt)]

/-- Concrete 2x3 tensor used by the `c2` witness: entry at `[i, j]` is
`10 * i + j`. -/
def xW : PTensor Nat := ⟨[2, 3], fun l => l.getD 0 0 * 10 + l.getD 1 0⟩

/-- Concrete 2x2 index tensor used by the `c2` witness. -/
def idxW : PTensor Nat := ⟨[2, 2], fun l => (l.getD 0 0 + l.getD 1 0) % 3⟩

/-- Witness for `c2_paddle_gather_correct`, instantiated at `xW`, `dim = -1`
(normalizing to axis 1) and `idxW`, reading the output at multi-index
`[1, 1]`. -/
theorem c2_paddle_gather_correct_witness :
    (paddle_gather xW (-1) idxW).shape = idxW.shape ∧
    (paddle_gather xW (-1) idxW).entry [1, 1] =
      xW.entry ((List.range xW.shape.length).map (fun k =>
        if k = 1 then idxW.entry [1, 1] else [1, 1].getD k 0 % xW.shape.getD k 0)) ∧
    ((∀ k, k < xW.shape.length → k ≠ 1 → idxW.shape.getD k 0 = xW.shape.getD k 0) →
      (paddle_gather xW (-1) idxW).entry [1, 1] =
        xW.entry ((List.range xW.shape.length).map (fun k =>
          if k = 1 then idxW.entry [1, 1] else [1, 1].getD k 0))) :=
  c2_paddle_gather_correct xW (-1) idxW 1 (by decide) (by decide) (by decide)
    (fun k hk hne => by
      have h2 : xW.shape.length = 2 := rfl
      have hk0 : k = 0 := by omega
      subst hk0; left; rfl)
    (fun l _ => Nat.mod_lt _ (by norm_num))
    (by decide)

/-! ## Fin-indexed tensors, linear layers and shared layer operations

The encoder stack works on `Fin`-indexed real arrays: a batch of sequences of
feature vectors has type `Fin B → Fin L → Fin H → ℝ`.  The sequence-axis
concatenations and slices of the source (`paddle.concat(..., axis=1)`,
`t[:, :word_size, :]`, `t[:, word_size:, :]`) become `concatSeq`, `sliceLow`
and `sliceHigh`.  All dropout layers are modelled as the identity. -/

/-- The constant `layer_norm_eps = 1e-6` of the source module. -/
noncomputable def layer_norm_eps : ℝ := 1e-6

/-- Parameters of `paddle.nn.Linear(i, o)`: weight of shape `[i, o]` and bias,
computing `y = x W + b`. -/
structure Linear (i o : ℕ) where
  w : Fin i → Fin o → ℝ
  b : Fin o → ℝ

/-- Application of a linear layer to one feature vector. -/
noncomputable def linApply {i o : ℕ} (lin : Linear i o) (x : Fin i → ℝ) :
    Fin o → ℝ :=
  fun j => (∑ k, x k * lin.w k j) + lin.b j

/-- Application of a linear layer to every token of a batch of sequences
(`nn.Linear` acts on the last axis). -/
noncomputable def linRows {B L i o : ℕ} (lin : Linear i o)
    (x : Fin B → Fin L → Fin i → ℝ) : Fin B → Fin L → Fin o → ℝ :=
  fun b t => linApply lin (x b t)

/-- Translation of `paddle.concat([a, c], axis=1)` restricted to one batch
element: word positions occupy the first `m` indices, the second operand the
remaining `n`. -/
def concatSeq {α : Type} {m n : ℕ} (a : Fin m → α) (c : Fin n → α) :
    Fin (m + n) → α :=
  fun i =>
    if h : (i : ℕ) < m then a ⟨i, h⟩
    else c ⟨(i : ℕ) - m, by have := i.isLt; omega⟩

/-- Translation of the slice `t[:m]` of a length-`(m+n)` sequence axis. -/
def sliceLow {α : Type} {m n : ℕ} (t : Fin (m + n) → α) : Fin m → α :=
  fun i => t (Fin.castAdd n i)

/-- Translation of the slice `t[m:]` of a length-`(m+n)` sequence axis. -/
def sliceHigh {α : Type} {m n : ℕ} (t : Fin (m + n) → α) : Fin n → α :=
  fun i => t (Fin.natAdd m i)

theorem concatSeq_castAdd {α : Type} {m n : ℕ} (a : Fin m → α) (c : Fin n → α)
    (i : Fin m) : concatSeq a c (Fin.castAdd n i) = a i := by
  simp [concatSeq, Fin.castAdd, i.isLt]

theorem concatSeq_natAdd {α : Type} {m n : ℕ} (a : Fin m → α) (c : Fin n → α)
    (i : Fin n) : concatSeq a c (Fin.natAdd m i) = c i := by
  have h : ¬ ((Fin.natAdd m i : Fin (m + n)) : ℕ) < m := by
    simp [Fin.natAdd]
  simp only [concatSeq, dif_neg h]
  congr 1
  ext
  simp [Fin.natAdd]

/-- Softmax over the last axis (`paddle.nn.functional.softmax(x, axis=-1)`). -/
noncomputable def softmax {n : ℕ} (x : Fin n → ℝ) : Fin n → ℝ :=
  fun i => Real.exp (x i) / ∑ j, Real.exp (x j)

theorem softmax_nonneg {n : ℕ} (x : Fin n → ℝ) (i : Fin n) : 0 ≤ softmax x i :=
  div_nonneg (Real.exp_nonneg _)
    (Finset.sum_nonneg fun j _ => Real.exp_nonneg (x j))

theorem softmax_sum_one {n : ℕ} (x : Fin n → ℝ) (i : Fin n) :
    ∑ j, softmax x j = 1 := by
  have hpos : 0 < ∑ j, Real.exp (x j) :=
    Finset.sum_pos (fun j _ => Real.exp_pos (x j)) ⟨i, Finset.mem_univ i⟩
  unfold softmax
  rw [← Finset.sum_div, div_self (ne_of_gt hpos)]

/-- LayerNorm over the feature axis, the paddle formula
`(x - mean) / sqrt(var + eps) * w + b` with biased variance. -/
noncomputable def layerNorm {n : ℕ} (eps : ℝ) (g bb : Fin n → ℝ)
    (x : Fin n → ℝ) : Fin n → ℝ :=
  let mean := (∑ k, x k) / n
  let var := (∑ k, (x k - mean) ^ 2) / n
  fun j => (x j - mean) / Real.sqrt (var + eps) * g j + bb j

/-! ## LukeSelfAttention (source lines 209-304) -/

/-- Parameters of `LukeSelfAttention`: the shared query/key/value projections
plus the three extra query projections of the multi-stream decomposition.
`attention_head_size` is `dh` and `all_head_size = nheads * dh`; the embedding
takes `hidden_size = nheads * dh` in compositions, as the configuration
requires divisibility. -/
structure LukeSelfAttentionParams (hidden nheads dh : ℕ) where
  query : Linear hidden (nheads * dh)
  key : Linear hidden (nheads * dh)
  value : Linear hidden (nheads * dh)
  w2e_query : Linear hidden (nheads * dh)
  e2w_query : Linear hidden (nheads * dh)
  e2e_query : Linear hidden (nheads * dh)

/-- Translation of `transpose_for_scores`: reshape `[B, L, nheads*dh]` to
`[B, L, nheads, dh]` and transpose to `[B, nheads, L, dh]`. -/
def transposeForScores {B L nheads dh : ℕ}
    (x : Fin B → Fin L → Fin (nheads * dh) → ℝ) :
    Fin B → Fin nheads → Fin L → Fin dh → ℝ :=
  fun b h t d => x b t ⟨h * dh + d, by
    have hh := h.isLt
    have hd := d.isLt
    calc (h : ℕ) * dh + d < h * dh + dh := by omega
      _ = (h + 1) * dh := by ring
      _ ≤ nheads * dh := Nat.mul_le_mul_right dh hh⟩

/-- Batched matrix product `q k^T` over the last two axes
(`paddle.matmul(q, k.transpose((0, 1, 3, 2)))`). -/
noncomputable def matmulNT {B nheads Lq Lk dh : ℕ}
    (q : Fin B → Fin nheads → Fin Lq → Fin dh → ℝ)
    (k : Fin B → Fin nheads → Fin Lk → Fin dh → ℝ) :
    Fin B → Fin nheads → Fin Lq → Fin Lk → ℝ :=
  fun b h x y => ∑ d, q b h x d * k b h y d

variable {B Lw Le hidden nheads dh : ℕ}

/-- The concatenated word-and-entity hidden states
(`paddle.concat([word_hidden_states, entity_hidden_states], axis=1)`). -/
def concatHiddenStates (w : Fin B → Fin Lw → Fin hidden → ℝ)
    (e : Fin B → Fin Le → Fin hidden → ℝ) :
    Fin B → Fin (Lw + Le) → Fin hidden → ℝ :=
  fun b => concatSeq (w b) (e b)

/-- `key_layer = transpose_for_scores(key(concat_hidden_states))`. -/
noncomputable def keyLayerE (p : LukeSelfAttentionParams hidden nheads dh)
    (w : Fin B → Fin Lw → Fin hidden → ℝ) (e : Fin B → Fin Le → Fin hidden → ℝ) :
    Fin B → Fin nheads → Fin (Lw + Le) → Fin dh → ℝ :=
  transposeForScores (linRows p.key (concatHiddenStates w e))

/-- `value_layer = transpose_for_scores(value(concat_hidden_states))`. -/
noncomputable def valueLayerE (p : LukeSelfAttentionParams hidden nheads dh)
    (w : Fin B → Fin Lw → Fin hidden → ℝ) (e : Fin B → Fin Le → Fin hidden → ℝ) :
    Fin B → Fin nheads → Fin (Lw + Le) → Fin dh → ℝ :=
  transposeForScores (linRows p.value (concatHiddenStates w e))

/-- `w2w_query_layer = transpose_for_scores(query(word_hidden_states))`. -/
noncomputable def w2wQueryLayer (p : LukeSelfAttentionParams hidden nheads dh)
    (w : Fin B → Fin Lw → Fin hidden → ℝ) :
    Fin B → Fin nheads → Fin Lw → Fin dh → ℝ :=
  transposeForScores (linRows p.query w)

/-- `w2e_query_layer = transpose_for_scores(w2e_query(word_hidden_states))`. -/
noncomputable def w2eQueryLayer (p : LukeSelfAttentionParams hidden nheads dh)
    (w : Fin B → Fin Lw → Fin hidden → ℝ) :
    Fin B → Fin nheads → Fin Lw → Fin dh → ℝ :=
  transposeForScores (linRows p.w2e_query w)

/-- `e2w_query_layer = transpose_for_scores(e2w_query(entity_hidden_states))`. -/
noncomputable def e2wQueryLayer (p : LukeSelfAttentionParams hidden nheads dh)
    (e : Fin B → Fin Le → Fin hidden → ℝ) :
    Fin B → Fin nheads → Fin Le → Fin dh → ℝ :=
  transposeForScores (linRows p.e2w_query e)

/-- `e2e_query_layer = transpose_for_scores(e2e_query(entity_hidden_states))`. -/
noncomputable def e2eQueryLayer (p : LukeSelfAttentionParams hidden nheads dh)
    (e : Fin B → Fin Le → Fin hidden → ℝ) :
    Fin B → Fin nheads → Fin Le → Fin dh → ℝ :=
  transposeForScores (linRows p.e2e_query e)

/-- `w2w_key_layer = key_layer[:, :, :word_size, :]`. -/
noncomputable def w2wKeyLayer (p : LukeSelfAttentionParams hidden nheads dh)
    (w : Fin B → Fin Lw → Fin hidden → ℝ) (e : Fin B → Fin Le → Fin hidden → ℝ) :
    Fin B → Fin nheads → Fin Lw → Fin dh → ℝ :=
  fun b h j d => keyLayerE p w e b h (Fin.castAdd Le j) d

/-- `e2w_key_layer = key_layer[:, :, :word_size, :]`. -/
noncomputable def e2wKeyLayer (p : LukeSelfAttentionParams hidden nheads dh)
    (w : Fin B → Fin Lw → Fin hidden → ℝ) (e : Fin B → Fin Le → Fin hidden → ℝ) :
    Fin B → Fin nheads → Fin Lw → Fin dh → ℝ :=
  fun b h j d => keyLayerE p w e b h (Fin.castAdd Le j) d

/-- `w2e_key_layer = key_layer[:, :, word_size:, :]`. -/
noncomputable def w2eKeyLayer (p : LukeSelfAttentionParams hidden nheads dh)
    (w : Fin B → Fin Lw → Fin hidden → ℝ) (e : Fin B → Fin Le → Fin hidden → ℝ) :
    Fin B → Fin nheads → Fin Le → Fin dh → ℝ :=
  fun b h j d => keyLayerE p w e b h (Fin.natAdd Lw j) d

/-- `e2e_key_layer = key_layer[:, :, word_size:, :]`. -/
noncomputable def e2eKeyLayer (p : LukeSelfAttentionParams hidden nheads dh)
    (w : Fin B → Fin Lw → Fin hidden → ℝ) (e : Fin B → Fin Le → Fin hidden → ℝ) :
    Fin B → Fin nheads → Fin Le → Fin dh → ℝ :=
  fun b h j d => keyLayerE p w e b h (Fin.natAdd Lw j) d

/-- `w2w_attention_scores = matmul(w2w_query_layer, w2w_key_layer^T)`. -/
noncomputable def w2wAttentionScores (p : LukeSelfAttentionParams hidden nheads dh)
    (w : Fin B → Fin Lw → Fin hidden → ℝ) (e : Fin B → Fin Le → Fin hidden → ℝ) :
    Fin B → Fin nheads → Fin Lw → Fin Lw → ℝ :=
  matmulNT (w2wQueryLayer p w) (w2wKeyLayer p w e)

/-- `w2e_attention_scores = matmul(w2e_query_layer, w2e_key_layer^T)`. -/
noncomputable def w2eAttentionScores (p : LukeSelfAttentionParams hidden nheads dh)
    (w : Fin B → Fin Lw → Fin hidden → ℝ) (e : Fin B → Fin Le → Fin hidden → ℝ) :
    Fin B → Fin nheads → Fin Lw → Fin Le → ℝ :=
  matmulNT (w2eQueryLayer p w) (w2eKeyLayer p w e)

/-- `e2w_attention_scores = matmul(e2w_query_layer, e2w_key_layer^T)`. -/
noncomputable def e2wAttentionScores (p : LukeSelfAttentionParams hidden nheads dh)
    (w : Fin B → Fin Lw → Fin hidden → ℝ) (e : Fin B → Fin Le → Fin hidden → ℝ) :
    Fin B → Fin nheads → Fin Le → Fin Lw → ℝ :=
  matmulNT (e2wQueryLayer p e) (e2wKeyLayer p w e)

/-- `e2e_attention_scores = matmul(e2e_query_layer, e2e_key_layer^T)`. -/
noncomputable def e2eAttentionScores (p : LukeSelfAttentionParams hidden nheads dh)
    (w : Fin B → Fin Lw → Fin hidden → ℝ) (e : Fin B → Fin Le → Fin hidden → ℝ) :
    Fin B → Fin nheads → Fin Le → Fin Le → ℝ :=
  matmulNT (e2eQueryLayer p e) (e2eKeyLayer p w e)

/-- `word_attention_scores = concat([w2w, w2e], axis=3)`. -/
noncomputable def wordAttentionScores (p : LukeSelfAttentionParams hidden nheads dh)
    (w : Fin B → Fin Lw → Fin hidden → ℝ) (e : Fin B → Fin Le → Fin hidden → ℝ) :
    Fin B → Fin nheads → Fin Lw → Fin (Lw + Le) → ℝ :=
  fun b h i => concatSeq (w2wAttentionScores p w e b h i) (w2eAttentionScores p w e b h i)

/-- `entity_attention_scores = concat([e2w, e2e], axis=3)`. -/
noncomputable def entityAttentionScores (p : LukeSelfAttentionParams hidden nheads dh)
    (w : Fin B → Fin Lw → Fin hidden → ℝ) (e : Fin B → Fin Le → Fin hidden → ℝ) :
    Fin B → Fin nheads → Fin Le → Fin (Lw + Le) → ℝ :=
  fun b h i => concatSeq (e2wAttentionScores p w e b h i) (e2eAttentionScores p w e b h i)

/-- `attention_scores = concat([word_attention_scores, entity_attention_scores],
axis=2)`: the full pre-softmax score matrix of the entity branch. -/
noncomputable def attentionScoresE (p : LukeSelfAttentionParams hidden nheads dh)
    (w : Fin B → Fin Lw → Fin hidden → ℝ) (e : Fin B → Fin Le → Fin hidden → ℝ) :
    Fin B → Fin nheads → Fin (Lw + Le) → Fin (Lw + Le) → ℝ :=
  fun b h => concatSeq (wordAttentionScores p w e b h) (entityAttentionScores p w e b h)

/-- `attention_scores = attention_scores / math.sqrt(attention_head_size)`. -/
noncomputable def scaledScores {Lq Lk : ℕ} (dh : ℕ)
    (s : Fin B → Fin nheads → Fin Lq → Fin Lk → ℝ) :
    Fin B → Fin nheads → Fin Lq → Fin Lk → ℝ :=
  fun b h i j => s b h i j / Real.sqrt (dh : ℝ)

/-- `if attention_mask is not None: attention_scores = attention_scores +
attention_mask` (the mask, precomputed in `LukeModel.forward`, has shape
`[B, 1, 1, Lk]` and broadcasts over heads and query positions). -/
noncomputable def maskedScores {Lq Lk : ℕ}
    (s : Fin B → Fin nheads → Fin Lq → Fin Lk → ℝ)
    (mask? : Option (Fin B → Fin Lk → ℝ)) :
    Fin B → Fin nheads → Fin Lq → Fin Lk → ℝ :=
  match mask? with
  | none => s
  | some m => fun b h i j => s b h i j + m b j

/-- `attention_probs = softmax(attention_scores, axis=-1)` (the subsequent
`dropout` is modelled as the identity). -/
noncomputable def attnProbsOf {Lq Lk : ℕ}
    (s : Fin B → Fin nheads → Fin Lq → Fin Lk → ℝ) :
    Fin B → Fin nheads → Fin Lq → Fin Lk → ℝ :=
  fun b h i => softmax (s b h i)

/-- `context_layer = matmul(attention_probs, value_layer)`. -/
noncomputable def contextLayer {Lq Lk : ℕ}
    (probs : Fin B → Fin nheads → Fin Lq → Fin Lk → ℝ)
    (v : Fin B → Fin nheads → Fin Lk → Fin dh → ℝ) :
    Fin B → Fin nheads → Fin Lq → Fin dh → ℝ :=
  fun b h i d => ∑ j, probs b h i j * v b h j d

/-- `context_layer.transpose((0, 2, 1, 3)).reshape([..., all_head_size])`:
merge the head and per-head axes back into one feature axis. -/
def mergeHeads {L : ℕ} (c : Fin B → Fin nheads → Fin L → Fin dh → ℝ) :
    Fin B → Fin L → Fin (nheads * dh) → ℝ :=
  fun b i z =>
    have h1 : 0 < nheads * dh := Nat.lt_of_le_of_lt (Nat.zero_le _) z.isLt
    have hdh : 0 < dh := Nat.pos_of_ne_zero (fun hdh0 => by
      rw [hdh0, Nat.mul_zero] at h1; exact Nat.lt_irrefl 0 h1)
    c b ⟨(z : ℕ) / dh, (Nat.div_lt_iff_lt_mul hdh).mpr (by have := z.isLt; omega)⟩ i
      ⟨(z : ℕ) % dh, Nat.mod_lt _ hdh⟩

/-- Attention probabilities of the entity branch of
`LukeSelfAttention.forward`: block scores, scaled by `sqrt(dh)`, masked,
softmaxed. -/
noncomputable def attentionProbsE (p : LukeSelfAttentionParams hidden nheads dh)
    (w : Fin B → Fin Lw → Fin hidden → ℝ) (e : Fin B → Fin Le → Fin hidden → ℝ)
    (mask? : Option (Fin B → Fin (Lw + Le) → ℝ)) :
    Fin B → Fin nheads → Fin (Lw + Le) → Fin (Lw + Le) → ℝ :=
  attnProbsOf (maskedScores (scaledScores dh (attentionScoresE p w e)) mask?)

/-- The merged context layer of the entity branch. -/
noncomputable def contextMergedE (p : LukeSelfAttentionParams hidden nheads dh)
    (w : Fin B → Fin Lw → Fin hidden → ℝ) (e : Fin B → Fin Le → Fin hidden → ℝ)
    (mask? : Option (Fin B → Fin (Lw + Le) → ℝ)) :
    Fin B → Fin (Lw + Le) → Fin (nheads * dh) → ℝ :=
  mergeHeads (contextLayer (attentionProbsE p w e mask?) (valueLayerE p w e))

/-- `LukeSelfAttention.forward` with entity hidden states present: the pair
`(output_word_hidden_states, output_entity_hidden_states)` obtained by
slicing the merged context layer at `word_size`. -/
noncomputable def lukeSelfAttentionForwardE
    (p : LukeSelfAttentionParams hidden nheads dh)
    (w : Fin B → Fin Lw → Fin hidden → ℝ) (e : Fin B → Fin Le → Fin hidden → ℝ)
    (mask? : Option (Fin B → Fin (Lw + Le) → ℝ)) :
    (Fin B → Fin Lw → Fin (nheads * dh) → ℝ) ×
      (Fin B → Fin Le → Fin (nheads * dh) → ℝ) :=
  (fun b => sliceLow (contextMergedE p w e mask? b),
   fun b => sliceHigh (contextMergedE p w e mask? b))

/-- `query_layer = transpose_for_scores(query(concat_hidden_states))` in the
branch without entities, where `concat_hidden_states = word_hidden_states`. -/
noncomputable def queryLayerN (p : LukeSelfAttentionParams hidden nheads dh)
    (w : Fin B → Fin Lw → Fin hidden → ℝ) :
    Fin B → Fin nheads → Fin Lw → Fin dh → ℝ :=
  transposeForScores (linRows p.query w)

/-- `key_layer` in the branch without entities. -/
noncomputable def keyLayerN (p : LukeSelfAttentionParams hidden nheads dh)
    (w : Fin B → Fin Lw → Fin hidden → ℝ) :
    Fin B → Fin nheads → Fin Lw → Fin dh → ℝ :=
  transposeForScores (linRows p.key w)

/-- `value_layer` in the branch without entities. -/
noncomputable def valueLayerN (p : LukeSelfAttentionParams hidden nheads dh)
    (w : Fin B → Fin Lw → Fin hidden → ℝ) :
    Fin B → Fin nheads → Fin Lw → Fin dh → ℝ :=
  transposeForScores (linRows p.value w)

/-- `attention_scores = matmul(query_layer, key_layer.transpose(...))` in the
branch without entities. -/
noncomputable def attentionScoresN (p : LukeSelfAttentionParams hidden nheads dh)
    (w : Fin B → Fin Lw → Fin hidden → ℝ) :
    Fin B → Fin nheads → Fin Lw → Fin Lw → ℝ :=
  matmulNT (queryLayerN p w) (keyLayerN p w)

/-- Attention probabilities of the branch without entities. -/
noncomputable def attentionProbsN (p : LukeSelfAttentionParams hidden nheads dh)
    (w : Fin B → Fin Lw → Fin hidden → ℝ)
    (mask? : Option (Fin B → Fin Lw → ℝ)) :
    Fin B → Fin nheads → Fin Lw → Fin Lw → ℝ :=
  attnProbsOf (maskedScores (scaledScores dh (attentionScoresN p w)) mask?)

/-- `LukeSelfAttention.forward` without entity hidden states (the caller
receives `None` as the entity component; here the word component). -/
noncomputable def lukeSelfAttentionForwardN
    (p : LukeSelfAttentionParams hidden nheads dh)
    (w : Fin B → Fin Lw → Fin hidden → ℝ)
    (mask? : Option (Fin B → Fin Lw → ℝ)) :
    Fin B → Fin Lw → Fin (nheads * dh) → ℝ :=
  mergeHeads (contextLayer (attentionProbsN p w mask?) (valueLayerN p w))

/-! ## Claims C1, C6, C9 -/

theorem keyLayerE_castAdd (p : LukeSelfAttentionParams hidden nheads dh)
    (w : Fin B → Fin Lw → Fin hidden → ℝ) (e : Fin B → Fin Le → Fin hidden → ℝ)
    (b : Fin B) (h : Fin nheads) (j : Fin Lw) (d : Fin dh) :
    keyLayerE p w e b h (Fin.castAdd Le j) d
      = transposeForScores (linRows p.key w) b h j d := by
  simp [keyLayerE, transposeForScores, linRows, concatHiddenStates, concatSeq_castAdd]

theorem keyLayerE_natAdd (p : LukeSelfAttentionParams hidden nheads dh)
    (w : Fin B → Fin Lw → Fin hidden → ℝ) (e : Fin B → Fin Le → Fin hidden → ℝ)
    (b : Fin B) (h : Fin nheads) (j : Fin Le) (d : Fin dh) :
    keyLayerE p w e b h (Fin.natAdd Lw j) d
      = transposeForScores (linRows p.key e) b h j d := by
  simp [keyLayerE, transposeForScores, linRows, concatHiddenStates, concatSeq_natAdd]

/-- Claim C1: with both word and entity hidden states given, the pre-softmax
attention score matrix assembled by `LukeSelfAttention.forward` is the 2x2
block matrix whose blocks are the four query/key stream products: word rows
and columns occupy the first `word_size` positions (`Fin.castAdd`), entity
positions the remaining ones (`Fin.natAdd`), and each block equals the stream
query projection of the corresponding row states times the transposed `key`
projection of the corresponding column states. -/
theorem c1_attention_block_structure
    (p : LukeSelfAttentionParams hidden nheads dh)
    (w : Fin B → Fin Lw → Fin hidden → ℝ) (e : Fin B → Fin Le → Fin hidden → ℝ)
    (b : Fin B) (h : Fin nheads) :
    (∀ (i j : Fin Lw),
      attentionScoresE p w e b h (Fin.castAdd Le i) (Fin.castAdd Le j)
        = ∑ d, transposeForScores (linRows p.query w) b h i d
            * transposeForScores (linRows p.key w) b h j d) ∧
    (∀ (i : Fin Lw) (j : Fin Le),
      attentionScoresE p w e b h (Fin.castAdd Le i) (Fin.natAdd Lw j)
        = ∑ d, transposeForScores (linRows p.w2e_query w) b h i d
            * transposeForScores (linRows p.key e) b h j d) ∧
    (∀ (i : Fin Le) (j : Fin Lw),
      attentionScoresE p w e b h (Fin.natAdd Lw i) (Fin.castAdd Le j)
        = ∑ d, transposeForScores (linRows p.e2w_query e) b h i d
            * transposeForScores (linRows p.key w) b h j d) ∧
    (∀ (i j : Fin Le),
      attentionScoresE p w e b h (Fin.natAdd Lw i) (Fin.natAdd Lw j)
        = ∑ d, transposeForScores (linRows p.e2e_query e) b h i d
            * transposeForScores (linRows p.key e) b h j d) := by
  refine ⟨fun i j => ?_, fun i j => ?_, fun i j => ?_, fun i j => ?_⟩
  · simp only [attentionScoresE, concatSeq_castAdd, wordAttentionScores,
      w2wAttentionScores, matmulNT, w2wQueryLayer, w2wKeyLayer]
    exact Finset.sum_congr rfl fun d _ => by rw [keyLayerE_castAdd]
  · simp only [attentionScoresE, concatSeq_castAdd, concatSeq_natAdd,
      wordAttentionScores, w2eAttentionScores, matmulNT, w2eQueryLayer, w2eKeyLayer]
    exact Finset.sum_congr rfl fun d _ => by rw [keyLayerE_natAdd]
  · simp only [attentionScoresE, concatSeq_castAdd, concatSeq_natAdd,
      entityAttentionScores, e2wAttentionScores, matmulNT, e2wQueryLayer, e2wKeyLayer]
    exact Finset.sum_congr rfl fun d _ => by rw [keyLayerE_castAdd]
  · simp only [attentionScoresE, concatSeq_natAdd, entityAttentionScores,
      e2eAttentionScores, matmulNT, e2eQueryLayer, e2eKeyLayer]
    exact Finset.sum_congr rfl fun d _ => by rw [keyLayerE_natAdd]

/-- Claim C9: in the entity branch the key vectors are computed once by the
single `key` projection on the concatenated hidden states and then sliced:
the w2w and e2w streams use the identical word-key block, the w2e and e2e
streams the identical entity-key block, each block coinciding with the `key`
projection of the respective part; the value vectors come from the single
`value` projection; and the key and value layers do not depend on any of the
four query projections (so the streams can differ only through their
queries). -/
theorem c9_single_key_value_projection
    (p : LukeSelfAttentionParams hidden nheads dh)
    (w : Fin B → Fin Lw → Fin hidden → ℝ) (e : Fin B → Fin Le → Fin hidden → ℝ) :
    (w2wKeyLayer p w e = e2wKeyLayer p w e) ∧
    (w2eKeyLayer p w e = e2eKeyLayer p w e) ∧
    (∀ b h j d, w2wKeyLayer p w e b h j d
      = transposeForScores (linRows p.key w) b h j d) ∧
    (∀ b h j d, w2eKeyLayer p w e b h j d
      = transposeForScores (linRows p.key e) b h j d) ∧
    (valueLayerE p w e = transposeForScores (linRows p.value (concatHiddenStates w e))) ∧
    (∀ (q k v wq ewq eeq wq' ewq' eeq' : Linear hidden (nheads * dh)),
      keyLayerE ⟨q, k, v, wq, ewq, eeq⟩ w e = keyLayerE ⟨q, k, v, wq', ewq', eeq'⟩ w e ∧
      valueLayerE ⟨q, k, v, wq, ewq, eeq⟩ w e = valueLayerE ⟨q, k, v, wq', ewq', eeq'⟩ w e) := by
  refine ⟨rfl, rfl, ?_, ?_, rfl, ?_⟩
  · intro b h j d; exact keyLayerE_castAdd p w e b h j d
  · intro b h j d; exact keyLayerE_natAdd p w e b h j d
  · intro q k v wq ewq eeq wq' ewq' eeq'
    exact ⟨rfl, rfl⟩

/-- Claim C6: in both branches of `LukeSelfAttention.forward` the raw scores
are divided by `sqrt(attention_head_size)`, the (optional) mask is added, and
softmax is taken over the last axis; the resulting attention probabilities
used to weight the value vectors are nonnegative and every row sums to 1. -/
theorem c6_attention_probabilities
    (p : LukeSelfAttentionParams hidden nheads dh)
    (w : Fin B → Fin Lw → Fin hidden → ℝ) (e : Fin B → Fin Le → Fin hidden → ℝ)
    (maskE? : Option (Fin B → Fin (Lw + Le) → ℝ))
    (maskN? : Option (Fin B → Fin Lw → ℝ))
    (b : Fin B) (h : Fin nheads) :
    (∀ (i : Fin (Lw + Le)),
      attentionProbsE p w e maskE? b h i
        = softmax (fun j => attentionScoresE p w e b h i j / Real.sqrt (dh : ℝ)
            + (match maskE? with | some m => m b j | none => 0)) ∧
      (∀ j, 0 ≤ attentionProbsE p w e maskE? b h i j) ∧
      (∑ j, attentionProbsE p w e maskE? b h i j) = 1) ∧
    (∀ (i : Fin Lw),
      attentionProbsN p w maskN? b h i
        = softmax (fun j => attentionScoresN p w b h i j / Real.sqrt (dh : ℝ)
            + (match maskN? with | some m => m b j | none => 0)) ∧
      (∀ j, 0 ≤ attentionProbsN p w maskN? b h i j) ∧
      (∑ j, attentionProbsN p w maskN? b h i j) = 1) := by
  constructor
  · intro i
    refine ⟨?_, fun j => softmax_nonneg _ j, softmax_sum_one _ i⟩
    cases maskE? with
    | none => simp only [attentionProbsE, attnProbsOf, maskedScores]; rw [show
        (fun j => attentionScoresE p w e b h i j / Real.sqrt (dh : ℝ) + (0 : ℝ))
          = scaledScores dh (attentionScoresE p w e) b h i from by
        funext j; rw [add_zero]; rfl]
    | some m => rfl
  · intro i
    refine ⟨?_, fun j => softmax_nonneg _ j, softmax_sum_one _ i⟩
    cases maskN? with
    | none => simp only [attentionProbsN, attnProbsOf, maskedScores]; rw [show
        (fun j => attentionScoresN p w b h i j / Real.sqrt (dh : ℝ) + (0 : ℝ))
          = scaledScores dh (attentionScoresN p w) b h i from by
        funext j; rw [add_zero]; rfl]
    | some m => rfl

/-! ## EntityEmbeddings (source lines 171-206) -/

variable {vocab typeVocab maxPos entityVocab embSize P : ℕ}

/-- Parameters of `EntityEmbeddings`: entity-vocabulary embedding table of
width `embSize`, the bias-free projection used when `embSize ≠ H`, the
position and token-type embedding tables, and the layer-norm weight/bias. -/
structure EntityEmbeddingsParams (entityVocab embSize maxPos typeVocab H : ℕ) where
  entity_embeddings : Fin entityVocab → Fin embSize → ℝ
  entity_embedding_dense : Fin embSize → Fin H → ℝ
  position_embeddings : Fin maxPos → Fin H → ℝ
  token_type_embeddings : Fin typeVocab → Fin H → ℝ
  ln_weight : Fin H → ℝ
  ln_bias : Fin H → ℝ

variable {H : ℕ}

/-- The entity-id embedding: table lookup, projected by
`entity_embedding_dense` exactly when `entity_emb_size != hidden_size`. -/
noncomputable def entityEmbVec (p : EntityEmbeddingsParams entityVocab embSize maxPos typeVocab H)
    (id : Fin entityVocab) : Fin H → ℝ :=
  if h : embSize = H then fun j => p.entity_embeddings id (Fin.cast h.symm j)
  else fun j => ∑ k, p.entity_embeddings id k * p.entity_embedding_dense k j

/-- Position-embedding lookup after `position_ids.clip(min=0)`: the clip is
`Int.toNat`; out-of-table ids (which paddle would reject) give junk `0`. -/
noncomputable def posLookupClip (p : EntityEmbeddingsParams entityVocab embSize maxPos typeVocab H)
    (z : ℤ) : Fin H → ℝ :=
  if h : z.toNat < maxPos then p.position_embeddings ⟨z.toNat, h⟩ else fun _ => 0

/-- `position_embedding_mask = (position_ids != -1).astype(dtype)`. -/
noncomputable def entityPositionMask {B Le : ℕ}
    (posIds : Fin B → Fin Le → Fin P → ℤ) (b : Fin B) (ee : Fin Le) (q : Fin P) : ℝ :=
  if posIds b ee q ≠ -1 then 1 else 0

/-- The position-embedding term of `EntityEmbeddings.forward` (source lines
194-198): embeddings looked up at the clipped ids, multiplied by the mask,
summed over the mention positions, divided by the mask count clipped below at
`1e-7`. -/
noncomputable def entityPositionTerm {B Le : ℕ}
    (p : EntityEmbeddingsParams entityVocab embSize maxPos typeVocab H)
    (posIds : Fin B → Fin Le → Fin P → ℤ) (b : Fin B) (ee : Fin Le) :
    Fin H → ℝ :=
  fun j => (∑ q, posLookupClip p (posIds b ee q) j * entityPositionMask posIds b ee q)
    / max (∑ q, entityPositionMask posIds b ee q) (1e-7)

/-- The token-type term of `EntityEmbeddings.forward`; `token_type_ids = None`
defaults to zeros (source line 187-188). -/
noncomputable def entityTypeTerm {B Le : ℕ}
    (p : EntityEmbeddingsParams entityVocab embSize maxPos typeVocab H)
    (typeIds? : Option (Fin B → Fin Le → Fin typeVocab)) (b : Fin B) (ee : Fin Le) :
    Fin H → ℝ :=
  match typeIds? with
  | some t => p.token_type_embeddings (t b ee)
  | none => if h : 0 < typeVocab then p.token_type_embeddings ⟨0, h⟩ else fun _ => 0

/-- `EntityEmbeddings.forward`: sum of the three terms, layer-normalized
(dropout is the identity). -/
noncomputable def entityEmbeddingsForward {B Le : ℕ}
    (p : EntityEmbeddingsParams entityVocab embSize maxPos typeVocab H)
    (ids : Fin B → Fin Le → Fin entityVocab)
    (posIds : Fin B → Fin Le → Fin P → ℤ)
    (typeIds? : Option (Fin B → Fin Le → Fin typeVocab)) :
    Fin B → Fin Le → Fin H → ℝ :=
  fun b ee => layerNorm layer_norm_eps p.ln_weight p.ln_bias
    (fun j => entityEmbVec p (ids b ee) j + entityPositionTerm p posIds b ee j
      + entityTypeTerm p typeIds? b ee j)

/-- Claim C3: for every call of `EntityEmbeddings.forward`, the
position-embedding term added for an entity equals the sum of the position
embeddings at that entity's position ids different from `-1`, divided by the
number of such ids with the divisor clipped below at `1e-7`; ids equal to
`-1` contribute nothing to either the sum or the count (they are clipped to
`0` and multiplied by a zero mask).  The hypothesis states the claim's
assumption that every position id is `-1` or a valid table index. -/
theorem c3_entity_position_embedding {B Le : ℕ}
    (p : EntityEmbeddingsParams entityVocab embSize maxPos typeVocab H)
    (posIds : Fin B → Fin Le → Fin P → ℤ) (b : Fin B) (ee : Fin Le)
    (hvalid : ∀ q, posIds b ee q = -1 ∨
      (0 ≤ posIds b ee q ∧ (posIds b ee q).toNat < maxPos))
    (j : Fin H) :
    entityPositionTerm p posIds b ee j =
      (∑ q ∈ Finset.univ.filter (fun q => posIds b ee q ≠ -1),
          posLookupClip p (posIds b ee q) j)
        / max ((Finset.univ.filter (fun q : Fin P => posIds b ee q ≠ -1)).card : ℝ)
            (1e-7) := by
  unfold entityPositionTerm
  congr 1
  · rw [Finset.sum_filter]
    refine Finset.sum_congr rfl fun q _ => ?_
    unfold entityPositionMask
    by_cases hq : posIds b ee q = -1
    · simp [hq]
    · simp [hq]
  · congr 1
    unfold entityPositionMask
    rw [Finset.sum_boole]

/-- Concrete entity-embedding parameters for the `c3` witness. -/
noncomputable def c3wParams : EntityEmbeddingsParams 1 1 2 1 1 :=
  ⟨fun _ _ => 0, fun _ _ => 0, fun i _ => (i : ℝ), fun _ _ => 0,
   fun _ => 1, fun _ => 0⟩

/-- Concrete position ids for the `c3` witness: one valid id and one `-1`. -/
def c3wPosIds : Fin 1 → Fin 1 → Fin 2 → ℤ :=
  fun _ _ q => if q.val = 0 then 0 else -1

/-- Witness for `c3_entity_position_embedding` at concrete parameters with
position ids `[0, -1]`. -/
theorem c3_entity_position_embedding_witness :
    (∀ q : Fin 2, c3wPosIds 0 0 q = -1 ∨
      (0 ≤ c3wPosIds 0 0 q ∧ (c3wPosIds 0 0 q).toNat < 2)) ∧
    entityPositionTerm c3wParams c3wPosIds 0 0 0 =
      (∑ q ∈ Finset.univ.filter (fun q => c3wPosIds 0 0 q ≠ -1),
          posLookupClip c3wParams (c3wPosIds 0 0 q) 0)
        / max ((Finset.univ.filter (fun q : Fin 2 => c3wPosIds 0 0 q ≠ -1)).card : ℝ)
            (1e-7) :=
  ⟨by decide, c3_entity_position_embedding c3wParams c3wPosIds 0 0 (by decide) 0⟩

/-! ## Word embeddings, remaining sublayers, encoder and LukeModel -/

/-- Parameters of the word-side embeddings (`LukeEmbeddings`, delegating to
`RobertaEmbeddings`). -/
structure WordEmbeddingsParams (vocab maxPos typeVocab H : ℕ) where
  word_embeddings : Fin vocab → Fin H → ℝ
  position_embeddings : Fin maxPos → Fin H → ℝ
  token_type_embeddings : Fin typeVocab → Fin H → ℝ
  ln_weight : Fin H → ℝ
  ln_bias : Fin H → ℝ

/-- Modelled from the spec: `LukeEmbeddings.forward` delegates to
`RobertaEmbeddings.forward`, which lives in the roberta module and is not part
of this file; per its docstring it is "Same as BertEmbeddings with a tiny
tweak for positional embeddings indexing", i.e. the sum of word, position and
token-type embeddings followed by layer normalization and (identity-modelled)
dropout, with the position and token-type ids taken as given. -/
noncomputable def lukeEmbeddingsForward {B Lw : ℕ}
    (p : WordEmbeddingsParams vocab maxPos typeVocab H)
    (inputIds : Fin B → Fin Lw → Fin vocab)
    (tokenTypeIds : Fin B → Fin Lw → Fin typeVocab)
    (positionIds : Fin B → Fin Lw → Fin maxPos) :
    Fin B → Fin Lw → Fin H → ℝ :=
  fun b t => layerNorm layer_norm_eps p.ln_weight p.ln_bias
    (fun j => p.word_embeddings (inputIds b t) j
      + p.position_embeddings (positionIds b t) j
      + p.token_type_embeddings (tokenTypeIds b t) j)

/-- Parameters of `LukeSelfOutput` / `LukeOutput`: dense projection, layer
norm weight and bias (dropout is the identity). -/
structure DenseLnParams (i o : ℕ) where
  dense : Linear i o
  ln_weight : Fin o → ℝ
  ln_bias : Fin o → ℝ

/-- `LukeSelfOutput.forward` (also the shape of `LukeOutput.forward`):
`layer_norm(dense(hidden_states) + input_tensor)`. -/
noncomputable def denseLnForward {B L i o : ℕ} (p : DenseLnParams i o)
    (hs : Fin B → Fin L → Fin i → ℝ) (input : Fin B → Fin L → Fin o → ℝ) :
    Fin B → Fin L → Fin o → ℝ :=
  fun b t => layerNorm layer_norm_eps p.ln_weight p.ln_bias
    (fun j => linApply p.dense (hs b t) j + input b t j)

/-- Parameters of `LukeIntermediate`: dense projection and the configured
activation (`get_activation(config.hidden_act)`, an external table of scalar
functions, modelled as the function itself). -/
structure IntermediateParams (H I : ℕ) where
  dense : Linear H I
  act : ℝ → ℝ

/-- `LukeIntermediate.forward`: dense projection then elementwise activation. -/
noncomputable def lukeIntermediateForward {B L H I : ℕ} (p : IntermediateParams H I)
    (x : Fin B → Fin L → Fin H → ℝ) : Fin B → Fin L → Fin I → ℝ :=
  fun b t j => p.act (linApply p.dense (x b t) j)

/-- Parameters of one `LukeLayer`: attention (self-attention plus its output
sublayer), intermediate, and output sublayer. -/
structure LukeLayerParams (nheads dh I : ℕ) where
  selfAttn : LukeSelfAttentionParams (nheads * dh) nheads dh
  attnOutput : DenseLnParams (nheads * dh) (nheads * dh)
  intermediate : IntermediateParams (nheads * dh) I
  output : DenseLnParams I (nheads * dh)

variable {I : ℕ}

/-- `LukeAttention.forward` with entities: self-attention, concatenated self
outputs through `LukeSelfOutput` against the concatenated inputs, then sliced
back into word and entity parts. -/
noncomputable def lukeAttentionForwardE {B Lw Le nheads dh I : ℕ}
    (p : LukeLayerParams nheads dh I)
    (w : Fin B → Fin Lw → Fin (nheads * dh) → ℝ)
    (e : Fin B → Fin Le → Fin (nheads * dh) → ℝ)
    (mask? : Option (Fin B → Fin (Lw + Le) → ℝ)) :
    (Fin B → Fin Lw → Fin (nheads * dh) → ℝ) ×
      (Fin B → Fin Le → Fin (nheads * dh) → ℝ) :=
  let so := lukeSelfAttentionForwardE p.selfAttn w e mask?
  let concatSelf := fun b => concatSeq (so.1 b) (so.2 b)
  let attnOut := denseLnForward p.attnOutput concatSelf (concatHiddenStates w e)
  (fun b => sliceLow (attnOut b), fun b => sliceHigh (attnOut b))

/-- `LukeAttention.forward` without entities (the `[:, :word_size, :]` slice
of a `word_size`-long axis is the identity and is omitted by the types). -/
noncomputable def lukeAttentionForwardN {B Lw nheads dh I : ℕ}
    (p : LukeLayerParams nheads dh I)
    (w : Fin B → Fin Lw → Fin (nheads * dh) → ℝ)
    (mask? : Option (Fin B → Fin Lw → ℝ)) :
    Fin B → Fin Lw → Fin (nheads * dh) → ℝ :=
  denseLnForward p.attnOutput (lukeSelfAttentionForwardN p.selfAttn w mask?) w

/-- `LukeLayer.feed_forward_chunk`: intermediate then output sublayer. -/
noncomputable def feedForwardChunk {B L nheads dh I : ℕ}
    (p : LukeLayerParams nheads dh I)
    (x : Fin B → Fin L → Fin (nheads * dh) → ℝ) :
    Fin B → Fin L → Fin (nheads * dh) → ℝ :=
  denseLnForward p.output (lukeIntermediateForward p.intermediate x) x

/-- `LukeLayer.forward` with entities: attention, feed-forward over the
concatenated attention output, sliced back into word and entity parts. -/
noncomputable def lukeLayerForwardE {B Lw Le nheads dh I : ℕ}
    (p : LukeLayerParams nheads dh I)
    (w : Fin B → Fin Lw → Fin (nheads * dh) → ℝ)
    (e : Fin B → Fin Le → Fin (nheads * dh) → ℝ)
    (mask? : Option (Fin B → Fin (Lw + Le) → ℝ)) :
    (Fin B → Fin Lw → Fin (nheads * dh) → ℝ) ×
      (Fin B → Fin Le → Fin (nheads * dh) → ℝ) :=
  let ao := lukeAttentionForwardE p w e mask?
  let concatAttn := fun b => concatSeq (ao.1 b) (ao.2 b)
  let lo := feedForwardChunk p concatAttn
  (fun b => sliceLow (lo b), fun b => sliceHigh (lo b))

/-- `LukeLayer.forward` without entities. -/
noncomputable def lukeLayerForwardN {B Lw nheads dh I : ℕ}
    (p : LukeLayerParams nheads dh I)
    (w : Fin B → Fin Lw → Fin (nheads * dh) → ℝ)
    (mask? : Option (Fin B → Fin Lw → ℝ)) :
    Fin B → Fin Lw → Fin (nheads * dh) → ℝ :=
  feedForwardChunk p (lukeAttentionForwardN p w mask?)

/-- `LukeEncoder.forward` with entities: fold the layers over the pair of
word and entity hidden states. -/
noncomputable def lukeEncoderForwardE {B Lw Le nheads dh I : ℕ}
    (layers : List (LukeLayerParams nheads dh I))
    (w : Fin B → Fin Lw → Fin (nheads * dh) → ℝ)
    (e : Fin B → Fin Le → Fin (nheads * dh) → ℝ)
    (mask? : Option (Fin B → Fin (Lw + Le) → ℝ)) :
    (Fin B → Fin Lw → Fin (nheads * dh) → ℝ) ×
      (Fin B → Fin Le → Fin (nheads * dh) → ℝ) :=
  layers.foldl (fun st lp => lukeLayerForwardE lp st.1 st.2 mask?) (w, e)

/-- `LukeEncoder.forward` without entities. -/
noncomputable def lukeEncoderForwardN {B Lw nheads dh I : ℕ}
    (layers : List (LukeLayerParams nheads dh I))
    (w : Fin B → Fin Lw → Fin (nheads * dh) → ℝ)
    (mask? : Option (Fin B → Fin Lw → ℝ)) :
    Fin B → Fin Lw → Fin (nheads * dh) → ℝ :=
  layers.foldl (fun st lp => lukeLayerForwardN lp st mask?) w

/-- `LukePooler.forward`: dense plus tanh on the hidden state of the first
token (junk `0` for an empty sequence, where the source would fail). -/
noncomputable def lukePoolerForward {B Lw Hd : ℕ} (lin : Linear Hd Hd)
    (w : Fin B → Fin Lw → Fin Hd → ℝ) : Fin B → Fin Hd → ℝ :=
  fun b j =>
    if h : 0 < Lw then Real.tanh (linApply lin (w b ⟨0, h⟩) j) else 0

/-- Word-side attention-mask preprocessing of `LukeModel.forward` (source
lines 553-561): built from the pad token when absent, otherwise the given
2-D `0/1` mask transformed by `(1 - m) * -1e4`. -/
noncomputable def processWordAttentionMask {B Lw : ℕ} (padId : ℕ)
    (inputIds : Fin B → Fin Lw → Fin vocab)
    (mask? : Option (Fin B → Fin Lw → ℝ)) : Fin B → Fin Lw → ℝ :=
  match mask? with
  | none => fun b k => (if (inputIds b k : ℕ) = padId then (1 : ℝ) else 0) * (-1e4)
  | some m => fun b k => (1 - m b k) * (-1e4)

/-- Entity-side attention-mask preprocessing (source lines 562-572). -/
noncomputable def processEntityAttentionMask {B Le : ℕ} (entityPadId : ℕ)
    (entityIds : Fin B → Fin Le → Fin entityVocab)
    (mask? : Option (Fin B → Fin Le → ℝ)) : Fin B → Fin Le → ℝ :=
  match mask? with
  | none => fun b k => (if (entityIds b k : ℕ) = entityPadId then (1 : ℝ) else 0) * (-1e4)
  | some m => fun b k => (1 - m b k) * (-1e4)

/-- The entity-side arguments of `LukeModel.forward`. -/
structure EntityInputs (B Le P entityVocab typeVocab : ℕ) where
  ids : Fin B → Fin Le → Fin entityVocab
  position_ids : Fin B → Fin Le → Fin P → ℤ
  token_type_ids : Option (Fin B → Fin Le → Fin typeVocab)
  attention_mask : Option (Fin B → Fin Le → ℝ)

/-- Parameters of `LukeModel`: pad ids, embeddings, entity embeddings, the
encoder layer list and the pooler. -/
structure LukeModelParams (vocab typeVocab maxPos entityVocab embSize nheads dh I : ℕ) where
  pad_token_id : ℕ
  entity_pad_token_id : ℕ
  embeddings : WordEmbeddingsParams vocab maxPos typeVocab (nheads * dh)
  entity_embeddings : EntityEmbeddingsParams entityVocab embSize maxPos typeVocab (nheads * dh)
  encoder : List (LukeLayerParams nheads dh I)
  pooler : Linear (nheads * dh) (nheads * dh)

/-- The entity branch of `LukeModel.forward` (entity inputs present): mask
preprocessing and concatenation, word and entity embeddings, encoder, pooler;
returns `(word_hidden_state, entity_hidden_state, pooled_output)`. -/
noncomputable def lukeModelForwardE {B Lw Le P nheads dh I : ℕ}
    {vocab typeVocab maxPos entityVocab embSize : ℕ}
    (p : LukeModelParams vocab typeVocab maxPos entityVocab embSize nheads dh I)
    (inputIds : Fin B → Fin Lw → Fin vocab)
    (tokenTypeIds : Fin B → Fin Lw → Fin typeVocab)
    (positionIds : Fin B → Fin Lw → Fin maxPos)
    (attentionMask? : Option (Fin B → Fin Lw → ℝ))
    (einp : EntityInputs B Le P entityVocab typeVocab) :
    (Fin B → Fin Lw → Fin (nheads * dh) → ℝ) ×
      (Fin B → Fin Le → Fin (nheads * dh) → ℝ) ×
      (Fin B → Fin (nheads * dh) → ℝ) :=
  let wordMask := processWordAttentionMask p.pad_token_id inputIds attentionMask?
  let wordEmb := lukeEmbeddingsForward p.embeddings inputIds tokenTypeIds positionIds
  let entityMask := processEntityAttentionMask p.entity_pad_token_id einp.ids
    einp.attention_mask
  let fullMask := fun b => concatSeq (wordMask b) (entityMask b)
  let entityEmb := entityEmbeddingsForward p.entity_embeddings einp.ids
    einp.position_ids einp.token_type_ids
  let out := lukeEncoderForwardE p.encoder wordEmb entityEmb (some fullMask)
  (out.1, out.2, lukePoolerForward p.pooler out.1)

/-- The branch of `LukeModel.forward` with `entity_ids = None`. -/
noncomputable def lukeModelForwardN {B Lw nheads dh I : ℕ}
    {vocab typeVocab maxPos entityVocab embSize : ℕ}
    (p : LukeModelParams vocab typeVocab maxPos entityVocab embSize nheads dh I)
    (inputIds : Fin B → Fin Lw → Fin vocab)
    (tokenTypeIds : Fin B → Fin Lw → Fin typeVocab)
    (positionIds : Fin B → Fin Lw → Fin maxPos)
    (attentionMask? : Option (Fin B → Fin Lw → ℝ)) :
    (Fin B → Fin Lw → Fin (nheads * dh) → ℝ) × (Fin B → Fin (nheads * dh) → ℝ) :=
  let wordMask := processWordAttentionMask p.pad_token_id inputIds attentionMask?
  let wordEmb := lukeEmbeddingsForward p.embeddings inputIds tokenTypeIds positionIds
  let wOut := lukeEncoderForwardN p.encoder wordEmb (some wordMask)
  (wOut, lukePoolerForward p.pooler wOut)

/-- `LukeModel.forward`: dispatch on the presence of the entity inputs;
returns `(word_hidden_state, entity_hidden_state?, pooled_output)` with the
entity component `none` exactly when `entity_ids` is `None`. -/
noncomputable def lukeModelForward {B Lw Le P nheads dh I : ℕ}
    {vocab typeVocab maxPos entityVocab embSize : ℕ}
    (p : LukeModelParams vocab typeVocab maxPos entityVocab embSize nheads dh I)
    (inputIds : Fin B → Fin Lw → Fin vocab)
    (tokenTypeIds : Fin B → Fin Lw → Fin typeVocab)
    (positionIds : Fin B → Fin Lw → Fin maxPos)
    (attentionMask? : Option (Fin B → Fin Lw → ℝ))
    (entity? : Option (EntityInputs B Le P entityVocab typeVocab)) :
    (Fin B → Fin Lw → Fin (nheads * dh) → ℝ) ×
      Option (Fin B → Fin Le → Fin (nheads * dh) → ℝ) ×
      (Fin B → Fin (nheads * dh) → ℝ) :=
  match entity? with
  | none =>
    let out := lukeModelForwardN p inputIds tokenTypeIds positionIds attentionMask?
    (out.1, none, out.2)
  | some einp =>
    let out := lukeModelForwardE p inputIds tokenTypeIds positionIds attentionMask? einp
    (out.1, some out.2.1, out.2.2)

/-! ## Task heads -/

/-- Parameters of `LukeLMHead`. -/
structure LukeLMHeadParams (vocab H : ℕ) where
  dense : Linear H H
  ln_weight : Fin H → ℝ
  ln_bias : Fin H → ℝ
  act : ℝ → ℝ
  decoder_weight : Fin vocab → Fin H → ℝ
  decoder_bias : Fin vocab → ℝ

/-- `LukeLMHead.forward`: dense, activation, layer norm, then
`matmul(hidden, decoder_weight^T) + decoder_bias`. -/
noncomputable def lukeLMHeadForward {B L : ℕ} (p : LukeLMHeadParams vocab H)
    (features : Fin B → Fin L → Fin H → ℝ) : Fin B → Fin L → Fin vocab → ℝ :=
  fun b t v =>
    (∑ j, layerNorm layer_norm_eps p.ln_weight p.ln_bias
        (fun k => p.act (linApply p.dense (features b t) k)) j
      * p.decoder_weight v j) + p.decoder_bias v

/-- Parameters of `EntityPredictionHead` (transform plus decoder). -/
structure EntityPredictionHeadParams (entityVocab embSize H : ℕ) where
  dense : Linear H embSize
  act : ℝ → ℝ
  ln_weight : Fin embSize → ℝ
  ln_bias : Fin embSize → ℝ
  decoder : Linear embSize entityVocab

/-- `EntityPredictionHead.forward`. -/
noncomputable def entityPredictionHeadForward {B L : ℕ}
    (p : EntityPredictionHeadParams entityVocab embSize H)
    (x : Fin B → Fin L → Fin H → ℝ) : Fin B → Fin L → Fin entityVocab → ℝ :=
  fun b t => linApply p.decoder (layerNorm layer_norm_eps p.ln_weight p.ln_bias
    (fun k => p.act (linApply p.dense (x b t) k)))

/-- Parameters of `LukeForMaskedLM`. -/
structure LukeForMaskedLMParams (vocab typeVocab maxPos entityVocab embSize nheads dh I : ℕ) where
  luke : LukeModelParams vocab typeVocab maxPos entityVocab embSize nheads dh I
  lm_head : LukeLMHeadParams vocab (nheads * dh)
  entity_predictions : EntityPredictionHeadParams entityVocab embSize (nheads * dh)

/-- `LukeForMaskedLM.forward` (the head consumes the entity hidden states, so
the entity inputs are present). -/
noncomputable def lukeForMaskedLMForward {B Lw Le P nheads dh I : ℕ}
    {vocab typeVocab maxPos entityVocab embSize : ℕ}
    (p : LukeForMaskedLMParams vocab typeVocab maxPos entityVocab embSize nheads dh I)
    (inputIds : Fin B → Fin Lw → Fin vocab)
    (tokenTypeIds : Fin B → Fin Lw → Fin typeVocab)
    (positionIds : Fin B → Fin Lw → Fin maxPos)
    (attentionMask? : Option (Fin B → Fin Lw → ℝ))
    (einp : EntityInputs B Le P entityVocab typeVocab) :
    (Fin B → Fin Lw → Fin vocab → ℝ) × (Fin B → Fin Le → Fin entityVocab → ℝ) :=
  let out := lukeModelForwardE p.luke inputIds tokenTypeIds positionIds attentionMask? einp
  (lukeLMHeadForward p.lm_head out.1,
   entityPredictionHeadForward p.entity_predictions out.2.1)

/-- Parameters of `LukeForEntityClassification`. -/
structure LukeForEntityClassificationParams
    (vocab typeVocab maxPos entityVocab embSize nheads dh I numLabels : ℕ) where
  luke : LukeModelParams vocab typeVocab maxPos entityVocab embSize nheads dh I
  classifier : Linear (nheads * dh) numLabels

/-- `LukeForEntityClassification.forward`: classifier over the hidden state of
the first entity token (dropout is the identity; junk `0` feature for an empty
entity axis, where the source would fail). -/
noncomputable def lukeForEntityClassificationForward {B Lw Le P nheads dh I numLabels : ℕ}
    {vocab typeVocab maxPos entityVocab embSize : ℕ}
    (p : LukeForEntityClassificationParams vocab typeVocab maxPos entityVocab embSize nheads dh I numLabels)
    (inputIds : Fin B → Fin Lw → Fin vocab)
    (tokenTypeIds : Fin B → Fin Lw → Fin typeVocab)
    (positionIds : Fin B → Fin Lw → Fin maxPos)
    (attentionMask? : Option (Fin B → Fin Lw → ℝ))
    (einp : EntityInputs B Le P entityVocab typeVocab) :
    Fin B → Fin numLabels → ℝ :=
  let out := lukeModelForwardE p.luke inputIds tokenTypeIds positionIds attentionMask? einp
  fun b => linApply p.classifier
    (if h : 0 < Le then out.2.1 b ⟨0, h⟩ else fun _ => 0)

/-- Parameters of `LukeForEntityPairClassification`; the classifier is
bias-free (`bias_attr=False`). -/
structure LukeForEntityPairClassificationParams
    (vocab typeVocab maxPos entityVocab embSize nheads dh I numLabels : ℕ) where
  luke : LukeModelParams vocab typeVocab maxPos entityVocab embSize nheads dh I
  classifier_weight : Fin (nheads * dh + nheads * dh) → Fin numLabels → ℝ

/-- `LukeForEntityPairClassification.forward`: bias-free classifier over the
concatenated hidden states of the first two entity tokens. -/
noncomputable def lukeForEntityPairClassificationForward {B Lw Le P nheads dh I numLabels : ℕ}
    {vocab typeVocab maxPos entityVocab embSize : ℕ}
    (p : LukeForEntityPairClassificationParams vocab typeVocab maxPos entityVocab embSize nheads dh I numLabels)
    (inputIds : Fin B → Fin Lw → Fin vocab)
    (tokenTypeIds : Fin B → Fin Lw → Fin typeVocab)
    (positionIds : Fin B → Fin Lw → Fin maxPos)
    (attentionMask? : Option (Fin B → Fin Lw → ℝ))
    (einp : EntityInputs B Le P entityVocab typeVocab) :
    Fin B → Fin numLabels → ℝ :=
  let out := lukeModelForwardE p.luke inputIds tokenTypeIds positionIds attentionMask? einp
  let feat := fun b => concatSeq
    (if h : 0 < Le then out.2.1 b ⟨0, h⟩ else fun _ => 0)
    (if h : 1 < Le then out.2.1 b ⟨1, h⟩ else fun _ => 0)
  fun b ℓ => ∑ k, feat b k * p.classifier_weight k ℓ

/-- Parameters of `LukeForQuestionAnswering`. -/
structure LukeForQuestionAnsweringParams
    (vocab typeVocab maxPos entityVocab embSize nheads dh I : ℕ) where
  luke : LukeModelParams vocab typeVocab maxPos entityVocab embSize nheads dh I
  qa_outputs : Linear (nheads * dh) 2

/-- The slice `t[:, :k, :]` of a batch of length-`L` sequences, `k ≤ L`
(`word_hidden_states = encoder_outputs[0][:, : input_ids.shape[1], :]`). -/
def sliceSeqTo {α : Type} {B L : ℕ} (t : Fin B → Fin L → α) (k : ℕ)
    (hk : k ≤ L) : Fin B → Fin k → α :=
  fun b i => t b (Fin.castLE hk i)

/-- The sliced word hidden states of `LukeForQuestionAnswering.forward`: the
encoder word output cut to the first `input_ids.shape[1] = Lw` positions. -/
noncomputable def lukeQAWordHiddenStates {B Lw Le P nheads dh I : ℕ}
    {vocab typeVocab maxPos entityVocab embSize : ℕ}
    (p : LukeForQuestionAnsweringParams vocab typeVocab maxPos entityVocab embSize nheads dh I)
    (inputIds : Fin B → Fin Lw → Fin vocab)
    (tokenTypeIds : Fin B → Fin Lw → Fin typeVocab)
    (positionIds : Fin B → Fin Lw → Fin maxPos)
    (attentionMask? : Option (Fin B → Fin Lw → ℝ))
    (entity? : Option (EntityInputs B Le P entityVocab typeVocab)) :
    Fin B → Fin Lw → Fin (nheads * dh) → ℝ :=
  sliceSeqTo
    (lukeModelForward p.luke inputIds tokenTypeIds positionIds attentionMask? entity?).1
    Lw le_rfl

/-- `LukeForQuestionAnswering.forward`: linear `qa_outputs` over the sliced
word hidden states, split into `(start_logits, end_logits)`. -/
noncomputable def lukeForQuestionAnsweringForward {B Lw Le P nheads dh I : ℕ}
    {vocab typeVocab maxPos entityVocab embSize : ℕ}
    (p : LukeForQuestionAnsweringParams vocab typeVocab maxPos entityVocab embSize nheads dh I)
    (inputIds : Fin B → Fin Lw → Fin vocab)
    (tokenTypeIds : Fin B → Fin Lw → Fin typeVocab)
    (positionIds : Fin B → Fin Lw → Fin maxPos)
    (attentionMask? : Option (Fin B → Fin Lw → ℝ))
    (entity? : Option (EntityInputs B Le P entityVocab typeVocab)) :
    (Fin B → Fin Lw → ℝ) × (Fin B → Fin Lw → ℝ) :=
  let wh := lukeQAWordHiddenStates p inputIds tokenTypeIds positionIds attentionMask? entity?
  (fun b t => linApply p.qa_outputs (wh b t) 0,
   fun b t => linApply p.qa_outputs (wh b t) 1)

/-! ## LukeForEntitySpanClassification (source lines 938-1039) -/

/-- View a `Fin`-indexed batch of sequences as a rank-3 `PTensor` (junk `0`
outside the valid range). -/
noncomputable def toPTensor3 {B L Hd : ℕ} (t : Fin B → Fin L → Fin Hd → ℝ) :
    PTensor ℝ :=
  ⟨[B, L, Hd], fun l =>
    if h : l.getD 0 0 < B ∧ l.getD 1 0 < L ∧ l.getD 2 0 < Hd then
      t ⟨l.getD 0 0, h.1⟩ ⟨l.getD 1 0, h.2.1⟩ ⟨l.getD 2 0, h.2.2⟩
    else 0⟩

/-- The result of `positions.unsqueeze(-1).expand((-1, -1, hidden_size))`: a
rank-3 index tensor, constant along the feature axis. -/
def positionsToPTensor {B E : ℕ} (pos : Fin B → Fin E → ℕ) (Hd : ℕ) :
    PTensor Nat :=
  ⟨[B, E, Hd], fun l =>
    if h : l.getD 0 0 < B ∧ l.getD 1 0 < E then pos ⟨l.getD 0 0, h.1⟩ ⟨l.getD 1 0, h.2⟩
    else 0⟩

/-- Parameters of `LukeForEntitySpanClassification`: the base model and a
classifier whose input width is three times the hidden size. -/
structure LukeForEntitySpanClassificationParams
    (vocab typeVocab maxPos entityVocab embSize nheads dh I numLabels : ℕ) where
  luke : LukeModelParams vocab typeVocab maxPos entityVocab embSize nheads dh I
  classifier : Linear (nheads * dh + (nheads * dh + nheads * dh)) numLabels

/-- `LukeForEntitySpanClassification.forward`: run the base model, gather the
word hidden states at the start and end positions with `paddle_gather`
(`dim = -2`), concatenate start states, end states and entity hidden states
along the feature axis, and classify (dropout is the identity). -/
noncomputable def lukeForEntitySpanClassificationForward {B Lw Le P nheads dh I numLabels : ℕ}
    {vocab typeVocab maxPos entityVocab embSize : ℕ}
    (p : LukeForEntitySpanClassificationParams vocab typeVocab maxPos entityVocab embSize nheads dh I numLabels)
    (startPos endPos : Fin B → Fin Le → ℕ)
    (inputIds : Fin B → Fin Lw → Fin vocab)
    (tokenTypeIds : Fin B → Fin Lw → Fin typeVocab)
    (positionIds : Fin B → Fin Lw → Fin maxPos)
    (attentionMask? : Option (Fin B → Fin Lw → ℝ))
    (einp : EntityInputs B Le P entityVocab typeVocab) :
    Fin B → Fin Le → Fin numLabels → ℝ :=
  let out := lukeModelForwardE p.luke inputIds tokenTypeIds positionIds attentionMask? einp
  let startStates := paddle_gather (toPTensor3 out.1) (-2)
    (positionsToPTensor startPos (nheads * dh))
  let endStates := paddle_gather (toPTensor3 out.1) (-2)
    (positionsToPTensor endPos (nheads * dh))
  fun b ee => linApply p.classifier (concatSeq
    (fun j : Fin (nheads * dh) => startStates.entry [(b : ℕ), (ee : ℕ), (j : ℕ)])
    (concatSeq
      (fun j : Fin (nheads * dh) => endStates.entry [(b : ℕ), (ee : ℕ), (j : ℕ)])
      (fun j => out.2.1 b ee j)))

/-- The gathered start/end states of the span head, characterized: the entry
at `[b, ee, j]` of `paddle_gather(word_hidden, -2, positions-expanded)` is the
word hidden state at sequence position `pos b ee`. -/
theorem spanGatherEntry {B Lw E Hd : ℕ} (t : Fin B → Fin Lw → Fin Hd → ℝ)
    (pos : Fin B → Fin E → ℕ) (hpos : ∀ b ee, pos b ee < Lw)
    (b : Fin B) (ee : Fin E) (j : Fin Hd) :
    (paddle_gather (toPTensor3 t) (-2) (positionsToPTensor pos Hd)).entry
        [(b : ℕ), (ee : ℕ), (j : ℕ)]
      = t b ⟨pos b ee, hpos b ee⟩ j := by
  have hl : validIdx (positionsToPTensor pos Hd).shape [(b : ℕ), (ee : ℕ), (j : ℕ)] := by
    refine ⟨rfl, ?_⟩
    intro q hq
    have hcases : q = ((b : ℕ), B) ∨ q = ((ee : ℕ), E) ∨ q = ((j : ℕ), Hd) := by
      simpa [positionsToPTensor] using hq
    rcases hcases with rfl | rfl | rfl
    · exact b.isLt
    · exact ee.isLt
    · exact j.isLt
  have h3 : (toPTensor3 t).shape.length = 3 := rfl
  obtain ⟨_, hent⟩ := paddle_gather_entry (toPTensor3 t) (-2) (positionsToPTensor pos Hd)
    1 (by rw [h3]; decide) rfl (by rw [h3]; decide) hl
  rw [hent]
  have hidx : (positionsToPTensor pos Hd).entry [(b : ℕ), (ee : ℕ), (j : ℕ)] = pos b ee := by
    simp only [positionsToPTensor]
    rw [dif_pos ⟨b.isLt, ee.isLt⟩]
    rfl
  have hmap : ((List.range (toPTensor3 t).shape.length).map (fun k =>
      if k = 1 then (positionsToPTensor pos Hd).entry [(b : ℕ), (ee : ℕ), (j : ℕ)]
      else [(b : ℕ), (ee : ℕ), (j : ℕ)].getD k 0 % (toPTensor3 t).shape.getD k 0))
      = [(b : ℕ) % B, pos b ee, (j : ℕ) % Hd] := by
    rw [h3, show List.range 3 = [0, 1, 2] from rfl]
    simp [hidx, List.getD, toPTensor3]
  rw [hmap, Nat.mod_eq_of_lt b.isLt, Nat.mod_eq_of_lt j.isLt]
  show (toPTensor3 t).entry [(b : ℕ), pos b ee, (j : ℕ)] = _
  simp only [toPTensor3]
  rw [dif_pos ⟨b.isLt, hpos b ee, j.isLt⟩]
  rfl

/-- Claim C4: the logits returned by `LukeForEntitySpanClassification.forward`
equal the classifier (input width three times the hidden size, by the type of
`classifier`) applied, after (identity) dropout, to the concatenation along
the feature axis of the word hidden states gathered at
`entity_start_positions`, the word hidden states gathered at
`entity_end_positions`, and the entity hidden states of the base `LukeModel`. -/
theorem c4_entity_span_classifier {B Lw Le P nheads dh I numLabels : ℕ}
    {vocab typeVocab maxPos entityVocab embSize : ℕ}
    (p : LukeForEntitySpanClassificationParams vocab typeVocab maxPos entityVocab embSize nheads dh I numLabels)
    (startPos endPos : Fin B → Fin Le → ℕ)
    (inputIds : Fin B → Fin Lw → Fin vocab)
    (tokenTypeIds : Fin B → Fin Lw → Fin typeVocab)
    (positionIds : Fin B → Fin Lw → Fin maxPos)
    (attentionMask? : Option (Fin B → Fin Lw → ℝ))
    (einp : EntityInputs B Le P entityVocab typeVocab)
    (hs : ∀ b ee, startPos b ee < Lw) (he : ∀ b ee, endPos b ee < Lw)
    (b : Fin B) (ee : Fin Le) (lb : Fin numLabels) :
    lukeForEntitySpanClassificationForward p startPos endPos inputIds tokenTypeIds
        positionIds attentionMask? einp b ee lb
      = linApply p.classifier (concatSeq
          (fun j => (lukeModelForwardE p.luke inputIds tokenTypeIds positionIds
              attentionMask? einp).1 b ⟨startPos b ee, hs b ee⟩ j)
          (concatSeq
            (fun j => (lukeModelForwardE p.luke inputIds tokenTypeIds positionIds
                attentionMask? einp).1 b ⟨endPos b ee, he b ee⟩ j)
            (fun j => (lukeModelForwardE p.luke inputIds tokenTypeIds positionIds
                attentionMask? einp).2.1 b ee j))) lb := by
  simp only [lukeForEntitySpanClassificationForward]
  have h1 : (fun j : Fin (nheads * dh) =>
      (paddle_gather (toPTensor3 (lukeModelForwardE p.luke inputIds tokenTypeIds
          positionIds attentionMask? einp).1) (-2)
        (positionsToPTensor startPos (nheads * dh))).entry [(b : ℕ), (ee : ℕ), (j : ℕ)])
      = fun j => (lukeModelForwardE p.luke inputIds tokenTypeIds positionIds
          attentionMask? einp).1 b ⟨startPos b ee, hs b ee⟩ j :=
    funext fun j => spanGatherEntry _ startPos hs b ee j
  have h2 : (fun j : Fin (nheads * dh) =>
      (paddle_gather (toPTensor3 (lukeModelForwardE p.luke inputIds tokenTypeIds
          positionIds attentionMask? einp).1) (-2)
        (positionsToPTensor endPos (nheads * dh))).entry [(b : ℕ), (ee : ℕ), (j : ℕ)])
      = fun j => (lukeModelForwardE p.luke inputIds tokenTypeIds positionIds
          attentionMask? einp).1 b ⟨endPos b ee, he b ee⟩ j :=
    funext fun j => spanGatherEntry _ endPos he b ee j
  rw [h1, h2]

/-- The all-zero linear layer used by concrete witnesses. -/
noncomputable def zeroLin (i o : ℕ) : Linear i o := ⟨fun _ _ => 0, fun _ => 0⟩

/-- An all-zero encoder layer with identity activation (witnesses). -/
noncomputable def zeroLayer : LukeLayerParams 1 1 1 :=
  ⟨⟨zeroLin 1 1, zeroLin 1 1, zeroLin 1 1, zeroLin 1 1, zeroLin 1 1, zeroLin 1 1⟩,
   ⟨zeroLin 1 1, fun _ => 0, fun _ => 0⟩,
   ⟨zeroLin 1 1, fun x => x⟩,
   ⟨zeroLin 1 1, fun _ => 0, fun _ => 0⟩⟩

/-- An all-zero one-layer base model of every dimension 1 (witnesses). -/
noncomputable def zeroLuke : LukeModelParams 1 1 1 1 1 1 1 1 :=
  ⟨0, 0,
   ⟨fun _ _ => 0, fun _ _ => 0, fun _ _ => 0, fun _ => 0, fun _ => 0⟩,
   ⟨fun _ _ => 0, fun _ _ => 0, fun _ _ => 0, fun _ _ => 0, fun _ => 0, fun _ => 0⟩,
   [zeroLayer], zeroLin 1 1⟩

/-- Span-classification parameters for the `c4` witness. -/
noncomputable def c4wParams : LukeForEntitySpanClassificationParams 1 1 1 1 1 1 1 1 1 :=
  ⟨zeroLuke, zeroLin (1 * 1 + (1 * 1 + 1 * 1)) 1⟩

/-- Entity inputs for witnesses at every dimension 1. -/
def oneEntityInputs : EntityInputs 1 1 1 1 1 :=
  ⟨fun _ _ => 0, fun _ _ _ => 0, none, none⟩

/-- Start/end positions for the `c4` witness. -/
def c4wPos : Fin 1 → Fin 1 → ℕ := fun _ _ => 0

/-- The constant-zero id/type/position input used by witnesses. -/
def oneIds : Fin 1 → Fin 1 → Fin 1 := fun _ _ => 0

/-- The absent attention mask used by witnesses. -/
def noMask : Option (Fin 1 → Fin 1 → ℝ) := none

/-- Witness for `c4_entity_span_classifier` at the all-zero one-layer model. -/
theorem c4_entity_span_classifier_witness :
    (∀ b ee : Fin 1, c4wPos b ee < 1) ∧
    lukeForEntitySpanClassificationForward c4wParams c4wPos c4wPos
        oneIds oneIds oneIds noMask oneEntityInputs 0 0 0
      = linApply c4wParams.classifier (concatSeq
          (fun j => (lukeModelForwardE c4wParams.luke oneIds oneIds
              oneIds noMask oneEntityInputs).1 0 (⟨c4wPos 0 0, by decide⟩ : Fin 1) j)
          (concatSeq
            (fun j => (lukeModelForwardE c4wParams.luke oneIds oneIds
                oneIds noMask oneEntityInputs).1 0 (⟨c4wPos 0 0, by decide⟩ : Fin 1) j)
            (fun j => (lukeModelForwardE c4wParams.luke oneIds oneIds
                oneIds noMask oneEntityInputs).2.1 0 0 j))) 0 :=
  ⟨by decide,
   c4_entity_span_classifier c4wParams c4wPos c4wPos oneIds oneIds
     oneIds noMask oneEntityInputs (by decide) (by decide) 0 0 0⟩

/-! ## Claim C8: the branch without entities -/

/-- Follows the spec's words: standard single-stream softmax attention over
the word tokens, using only the plain `query`, `key` and `value` projections:
probabilities `softmax(Q K^T / sqrt(dh) + mask)` weight the value vectors and
the heads are merged back into one feature axis. -/
noncomputable def standardSingleStreamAttention {B Lw hidden nheads dh : ℕ}
    (q k v : Linear hidden (nheads * dh))
    (w : Fin B → Fin Lw → Fin hidden → ℝ)
    (mask? : Option (Fin B → Fin Lw → ℝ)) :
    Fin B → Fin Lw → Fin (nheads * dh) → ℝ :=
  mergeHeads (fun b h i d => ∑ j,
    softmax (fun y => (∑ z, transposeForScores (linRows q w) b h i z
        * transposeForScores (linRows k w) b h y z) / Real.sqrt (dh : ℝ)
      + (match mask? with | some m => m b y | none => 0)) j
    * transposeForScores (linRows v w) b h j d)

/-- Claim C8: with `entity_ids = None`, `LukeModel.forward` returns `none` as
its entity-hidden-state component, and the self-attention reduces to standard
single-stream attention using only the plain `query` projection over the word
tokens: the word output equals the spec-side `standardSingleStreamAttention`,
and the result is invariant under arbitrary changes of the `w2e_query`,
`e2w_query` and `e2e_query` projections (they are not used). -/
theorem c8_entity_none_single_stream {B Lw Le P nheads dh I : ℕ}
    {vocab typeVocab maxPos entityVocab embSize hidden : ℕ}
    (p : LukeModelParams vocab typeVocab maxPos entityVocab embSize nheads dh I)
    (inputIds : Fin B → Fin Lw → Fin vocab)
    (tokenTypeIds : Fin B → Fin Lw → Fin typeVocab)
    (positionIds : Fin B → Fin Lw → Fin maxPos)
    (attentionMask? : Option (Fin B → Fin Lw → ℝ))
    (pa : LukeSelfAttentionParams hidden nheads dh)
    (w : Fin B → Fin Lw → Fin hidden → ℝ)
    (mask? : Option (Fin B → Fin Lw → ℝ)) :
    (lukeModelForward p inputIds tokenTypeIds positionIds attentionMask?
        (none : Option (EntityInputs B Le P entityVocab typeVocab))).2.1 = none ∧
    lukeSelfAttentionForwardN pa w mask?
      = standardSingleStreamAttention pa.query pa.key pa.value w mask? ∧
    (∀ (q k v wq ewq eeq wq' ewq' eeq' : Linear hidden (nheads * dh)),
      lukeSelfAttentionForwardN ⟨q, k, v, wq, ewq, eeq⟩ w mask?
        = lukeSelfAttentionForwardN ⟨q, k, v, wq', ewq', eeq'⟩ w mask?) := by
  refine ⟨rfl, ?_, fun q k v wq ewq eeq wq' ewq' eeq' => rfl⟩
  cases mask? with
  | some m => rfl
  | none =>
    simp only [lukeSelfAttentionForwardN, standardSingleStreamAttention,
      attentionProbsN, attnProbsOf, maskedScores, scaledScores, attentionScoresN,
      matmulNT, queryLayerN, keyLayerN, valueLayerN, contextLayer, add_zero]
    rfl

/-! ## Claim C10: sequence lengths and the QA slice -/

/-- Claim C10: the word hidden state returned by `LukeModel.forward` has
sequence length `Lw = input_ids.shape[1]` and the entity hidden state length
`Le` (both enforced by the `Fin` types of `lukeModelForward`, which every
encoder layer preserves); consequently the slice
`encoder_outputs[0][:, : input_ids.shape[1], :]` taken in
`LukeForQuestionAnswering.forward` is the identity, and the start/end logits
are the `qa_outputs` projection of the unsliced word hidden states. -/
theorem c10_qa_slice_identity {B Lw Le P nheads dh I : ℕ}
    {vocab typeVocab maxPos entityVocab embSize : ℕ}
    (p : LukeForQuestionAnsweringParams vocab typeVocab maxPos entityVocab embSize nheads dh I)
    (inputIds : Fin B → Fin Lw → Fin vocab)
    (tokenTypeIds : Fin B → Fin Lw → Fin typeVocab)
    (positionIds : Fin B → Fin Lw → Fin maxPos)
    (attentionMask? : Option (Fin B → Fin Lw → ℝ))
    (entity? : Option (EntityInputs B Le P entityVocab typeVocab)) :
    lukeQAWordHiddenStates p inputIds tokenTypeIds positionIds attentionMask? entity?
      = (lukeModelForward p.luke inputIds tokenTypeIds positionIds attentionMask?
          entity?).1 ∧
    (lukeForQuestionAnsweringForward p inputIds tokenTypeIds positionIds
        attentionMask? entity?).1
      = (fun b t => linApply p.qa_outputs ((lukeModelForward p.luke inputIds
          tokenTypeIds positionIds attentionMask? entity?).1 b t) 0) ∧
    (lukeForQuestionAnsweringForward p inputIds tokenTypeIds positionIds
        attentionMask? entity?).2
      = (fun b t => linApply p.qa_outputs ((lukeModelForward p.luke inputIds
          tokenTypeIds positionIds attentionMask? entity?).1 b t) 1) := by
  have hslice : lukeQAWordHiddenStates p inputIds tokenTypeIds positionIds
      attentionMask? entity?
      = (lukeModelForward p.luke inputIds tokenTypeIds positionIds attentionMask?
          entity?).1 := by
    funext b t
    show (lukeModelForward p.luke inputIds tokenTypeIds positionIds attentionMask?
        entity?).1 b (Fin.castLE le_rfl t) = _
    congr 1
  refine ⟨hslice, ?_, ?_⟩
  · show (fun b t => linApply p.qa_outputs ((lukeQAWordHiddenStates p inputIds
        tokenTypeIds positionIds attentionMask? entity?) b t) 0) = _
    rw [hslice]
  · show (fun b t => linApply p.qa_outputs ((lukeQAWordHiddenStates p inputIds
        tokenTypeIds positionIds attentionMask? entity?) b t) 1) = _
    rw [hslice]

/-! ## Claim C7: forward passes thread the parameters unchanged

The Python forward methods only read `self`; their embedding therefore
threads the parameter record through explicitly (rebuilt field by field) and
returns it next to the output, so that the frame property "forward mutates no
parameter, buffer or configuration field, and the output depends only on the
arguments and the parameters" is a theorem about these wrappers.  (The only
framework state touched at all is the dropout RNG, modelled as the identity.) -/

/-- `LukeModel.forward` with explicit parameter threading. -/
noncomputable def lukeModelForwardM {B Lw Le P nheads dh I : ℕ}
    {vocab typeVocab maxPos entityVocab embSize : ℕ}
    (p : LukeModelParams vocab typeVocab maxPos entityVocab embSize nheads dh I)
    (inputIds : Fin B → Fin Lw → Fin vocab)
    (tokenTypeIds : Fin B → Fin Lw → Fin typeVocab)
    (positionIds : Fin B → Fin Lw → Fin maxPos)
    (attentionMask? : Option (Fin B → Fin Lw → ℝ))
    (entity? : Option (EntityInputs B Le P entityVocab typeVocab)) :
    ((Fin B → Fin Lw → Fin (nheads * dh) → ℝ) ×
      Option (Fin B → Fin Le → Fin (nheads * dh) → ℝ) ×
      (Fin B → Fin (nheads * dh) → ℝ)) ×
    LukeModelParams vocab typeVocab maxPos entityVocab embSize nheads dh I :=
  (lukeModelForward p inputIds tokenTypeIds positionIds attentionMask? entity?,
   ⟨p.pad_token_id, p.entity_pad_token_id, p.embeddings, p.entity_embeddings,
    p.encoder, p.pooler⟩)

/-- `LukeForMaskedLM.forward` with explicit parameter threading. -/
noncomputable def lukeForMaskedLMForwardM {B Lw Le P nheads dh I : ℕ}
    {vocab typeVocab maxPos entityVocab embSize : ℕ}
    (p : LukeForMaskedLMParams vocab typeVocab maxPos entityVocab embSize nheads dh I)
    (inputIds : Fin B → Fin Lw → Fin vocab)
    (tokenTypeIds : Fin B → Fin Lw → Fin typeVocab)
    (positionIds : Fin B → Fin Lw → Fin maxPos)
    (attentionMask? : Option (Fin B → Fin Lw → ℝ))
    (einp : EntityInputs B Le P entityVocab typeVocab) :
    ((Fin B → Fin Lw → Fin vocab → ℝ) × (Fin B → Fin Le → Fin entityVocab → ℝ)) ×
    LukeForMaskedLMParams vocab typeVocab maxPos entityVocab embSize nheads dh I :=
  (lukeForMaskedLMForward p inputIds tokenTypeIds positionIds attentionMask? einp,
   ⟨p.luke, p.lm_head, p.entity_predictions⟩)

/-- `LukeForEntityClassification.forward` with explicit parameter threading. -/
noncomputable def lukeForEntityClassificationForwardM {B Lw Le P nheads dh I numLabels : ℕ}
    {vocab typeVocab maxPos entityVocab embSize : ℕ}
    (p : LukeForEntityClassificationParams vocab typeVocab maxPos entityVocab embSize nheads dh I numLabels)
    (inputIds : Fin B → Fin Lw → Fin vocab)
    (tokenTypeIds : Fin B → Fin Lw → Fin typeVocab)
    (positionIds : Fin B → Fin Lw → Fin maxPos)
    (attentionMask? : Option (Fin B → Fin Lw → ℝ))
    (einp : EntityInputs B Le P entityVocab typeVocab) :
    (Fin B → Fin numLabels → ℝ) ×
    LukeForEntityClassificationParams vocab typeVocab maxPos entityVocab embSize nheads dh I numLabels :=
  (lukeForEntityClassificationForward p inputIds tokenTypeIds positionIds
    attentionMask? einp, ⟨p.luke, p.classifier⟩)

/-- `LukeForEntityPairClassification.forward` with explicit parameter
threading. -/
noncomputable def lukeForEntityPairClassificationForwardM {B Lw Le P nheads dh I numLabels : ℕ}
    {vocab typeVocab maxPos entityVocab embSize : ℕ}
    (p : LukeForEntityPairClassificationParams vocab typeVocab maxPos entityVocab embSize nheads dh I numLabels)
    (inputIds : Fin B → Fin Lw → Fin vocab)
    (tokenTypeIds : Fin B → Fin Lw → Fin typeVocab)
    (positionIds : Fin B → Fin Lw → Fin maxPos)
    (attentionMask? : Option (Fin B → Fin Lw → ℝ))
    (einp : EntityInputs B Le P entityVocab typeVocab) :
    (Fin B → Fin numLabels → ℝ) ×
    LukeForEntityPairClassificationParams vocab typeVocab maxPos entityVocab embSize nheads dh I numLabels :=
  (lukeForEntityPairClassificationForward p inputIds tokenTypeIds positionIds
    attentionMask? einp, ⟨p.luke, p.classifier_weight⟩)

/-- `LukeForEntitySpanClassification.forward` with explicit parameter
threading. -/
noncomputable def lukeForEntitySpanClassificationForwardM {B Lw Le P nheads dh I numLabels : ℕ}
    {vocab typeVocab maxPos entityVocab embSize : ℕ}
    (p : LukeForEntitySpanClassificationParams vocab typeVocab maxPos entityVocab embSize nheads dh I numLabels)
    (startPos endPos : Fin B → Fin Le → ℕ)
    (inputIds : Fin B → Fin Lw → Fin vocab)
    (tokenTypeIds : Fin B → Fin Lw → Fin typeVocab)
    (positionIds : Fin B → Fin Lw → Fin maxPos)
    (attentionMask? : Option (Fin B → Fin Lw → ℝ))
    (einp : EntityInputs B Le P entityVocab typeVocab) :
    (Fin B → Fin Le → Fin numLabels → ℝ) ×
    LukeForEntitySpanClassificationParams vocab typeVocab maxPos entityVocab embSize nheads dh I numLabels :=
  (lukeForEntitySpanClassificationForward p startPos endPos inputIds tokenTypeIds
    positionIds attentionMask? einp, ⟨p.luke, p.classifier⟩)

/-- `LukeForQuestionAnswering.forward` with explicit parameter threading. -/
noncomputable def lukeForQuestionAnsweringForwardM {B Lw Le P nheads dh I : ℕ}
    {vocab typeVocab maxPos entityVocab embSize : ℕ}
    (p : LukeForQuestionAnsweringParams vocab typeVocab maxPos entityVocab embSize nheads dh I)
    (inputIds : Fin B → Fin Lw → Fin vocab)
    (tokenTypeIds : Fin B → Fin Lw → Fin typeVocab)
    (positionIds : Fin B → Fin Lw → Fin maxPos)
    (attentionMask? : Option (Fin B → Fin Lw → ℝ))
    (entity? : Option (EntityInputs B Le P entityVocab typeVocab)) :
    ((Fin B → Fin Lw → ℝ) × (Fin B → Fin Lw → ℝ)) ×
    LukeForQuestionAnsweringParams vocab typeVocab maxPos entityVocab embSize nheads dh I :=
  (lukeForQuestionAnsweringForward p inputIds tokenTypeIds positionIds
    attentionMask? entity?, ⟨p.luke, p.qa_outputs⟩)

/-- Claim C7: every forward pass of `LukeModel` and of the five task heads is
a pure function of its arguments and the model parameters: the threaded
parameter record comes back unchanged (no parameter, buffer or configuration
field is mutated; no state carries over between calls), and the output is
exactly the pure forward function of parameters and arguments. -/
theorem c7_forward_pure :
    (∀ {B Lw Le P nheads dh I vocab typeVocab maxPos entityVocab embSize : ℕ}
      (p : LukeModelParams vocab typeVocab maxPos entityVocab embSize nheads dh I)
      (a1 : Fin B → Fin Lw → Fin vocab) (a2 : Fin B → Fin Lw → Fin typeVocab)
      (a3 : Fin B → Fin Lw → Fin maxPos) (a4 : Option (Fin B → Fin Lw → ℝ))
      (a5 : Option (EntityInputs B Le P entityVocab typeVocab)),
      (lukeModelForwardM p a1 a2 a3 a4 a5).2 = p ∧
      (lukeModelForwardM p a1 a2 a3 a4 a5).1 = lukeModelForward p a1 a2 a3 a4 a5) ∧
    (∀ {B Lw Le P nheads dh I vocab typeVocab maxPos entityVocab embSize : ℕ}
      (p : LukeForMaskedLMParams vocab typeVocab maxPos entityVocab embSize nheads dh I)
      (a1 : Fin B → Fin Lw → Fin vocab) (a2 : Fin B → Fin Lw → Fin typeVocab)
      (a3 : Fin B → Fin Lw → Fin maxPos) (a4 : Option (Fin B → Fin Lw → ℝ))
      (a5 : EntityInputs B Le P entityVocab typeVocab),
      (lukeForMaskedLMForwardM p a1 a2 a3 a4 a5).2 = p ∧
      (lukeForMaskedLMForwardM p a1 a2 a3 a4 a5).1
        = lukeForMaskedLMForward p a1 a2 a3 a4 a5) ∧
    (∀ {B Lw Le P nheads dh I numLabels vocab typeVocab maxPos entityVocab embSize : ℕ}
      (p : LukeForEntityClassificationParams vocab typeVocab maxPos entityVocab embSize nheads dh I numLabels)
      (a1 : Fin B → Fin Lw → Fin vocab) (a2 : Fin B → Fin Lw → Fin typeVocab)
      (a3 : Fin B → Fin Lw → Fin maxPos) (a4 : Option (Fin B → Fin Lw → ℝ))
      (a5 : EntityInputs B Le P entityVocab typeVocab),
      (lukeForEntityClassificationForwardM p a1 a2 a3 a4 a5).2 = p ∧
      (lukeForEntityClassificationForwardM p a1 a2 a3 a4 a5).1
        = lukeForEntityClassificationForward p a1 a2 a3 a4 a5) ∧
    (∀ {B Lw Le P nheads dh I numLabels vocab typeVocab maxPos entityVocab embSize : ℕ}
      (p : LukeForEntityPairClassificationParams vocab typeVocab maxPos entityVocab embSize nheads dh I numLabels)
      (a1 : Fin B → Fin Lw → Fin vocab) (a2 : Fin B → Fin Lw → Fin typeVocab)
      (a3 : Fin B → Fin Lw → Fin maxPos) (a4 : Option (Fin B → Fin Lw → ℝ))
      (a5 : EntityInputs B Le P entityVocab typeVocab),
      (lukeForEntityPairClassificationForwardM p a1 a2 a3 a4 a5).2 = p ∧
      (lukeForEntityPairClassificationForwardM p a1 a2 a3 a4 a5).1
        = lukeForEntityPairClassificationForward p a1 a2 a3 a4 a5) ∧
    (∀ {B Lw Le P nheads dh I numLabels vocab typeVocab maxPos entityVocab embSize : ℕ}
      (p : LukeForEntitySpanClassificationParams vocab typeVocab maxPos entityVocab embSize nheads dh I numLabels)
      (s0 e0 : Fin B → Fin Le → ℕ)
      (a1 : Fin B → Fin Lw → Fin vocab) (a2 : Fin B → Fin Lw → Fin typeVocab)
      (a3 : Fin B → Fin Lw → Fin maxPos) (a4 : Option (Fin B → Fin Lw → ℝ))
      (a5 : EntityInputs B Le P entityVocab typeVocab),
      (lukeForEntitySpanClassificationForwardM p s0 e0 a1 a2 a3 a4 a5).2 = p ∧
      (lukeForEntitySpanClassificationForwardM p s0 e0 a1 a2 a3 a4 a5).1
        = lukeForEntitySpanClassificationForward p s0 e0 a1 a2 a3 a4 a5) ∧
    (∀ {B Lw Le P nheads dh I vocab typeVocab maxPos entityVocab embSize : ℕ}
      (p : LukeForQuestionAnsweringParams vocab typeVocab maxPos entityVocab embSize nheads dh I)
      (a1 : Fin B → Fin Lw → Fin vocab) (a2 : Fin B → Fin Lw → Fin typeVocab)
      (a3 : Fin B → Fin Lw → Fin maxPos) (a4 : Option (Fin B → Fin Lw → ℝ))
      (a5 : Option (EntityInputs B Le P entityVocab typeVocab)),
      (lukeForQuestionAnsweringForwardM p a1 a2 a3 a4 a5).2 = p ∧
      (lukeForQuestionAnsweringForwardM p a1 a2 a3 a4 a5).1
        = lukeForQuestionAnsweringForward p a1 a2 a3 a4 a5) :=
  ⟨fun p _ _ _ _ _ => ⟨rfl, rfl⟩,
   fun p _ _ _ _ _ => ⟨rfl, rfl⟩,
   fun p _ _ _ _ _ => ⟨rfl, rfl⟩,
   fun p _ _ _ _ _ => ⟨rfl, rfl⟩,
   fun p _ _ _ _ _ _ _ => ⟨rfl, rfl⟩,
   fun p _ _ _ _ _ => ⟨rfl, rfl⟩⟩

/-! ## Claim C5: words and entities are jointly contextualized

We exhibit concrete parameters (hidden size 2, one head of size 2, one
encoder layer) and two calls of `LukeModel.forward` that agree on every
word-side argument and differ only in the entity-side argument (`some`
entity inputs versus `none`) yet return different word hidden states: the
word token attends to the entity position, so the entity inputs flow into the
word stream. -/

/-- The vector `(1, -1)` used to build layer-norm-friendly states. -/
noncomputable def baseVec : Fin 2 → ℝ := fun j => if j.val = 0 then 1 else -1

theorem baseVec_zero : baseVec 0 = 1 := rfl

theorem baseVec_one : baseVec 1 = -1 := rfl

/-- The 2x2 identity linear layer. -/
noncomputable def idLin2 : Linear 2 2 :=
  ⟨fun i j => if i = j then 1 else 0, fun _ => 0⟩

theorem linApply_zeroLin {i o : ℕ} (x : Fin i → ℝ) (j : Fin o) :
    linApply (zeroLin i o) x j = 0 := by
  simp [linApply, zeroLin]

theorem linApply_idLin2 (x : Fin 2 → ℝ) (j : Fin 2) : linApply idLin2 x j = x j := by
  simp only [linApply, idLin2, mul_ite, mul_one, mul_zero]
  rw [Finset.sum_ite_eq' Finset.univ j x]
  simp

theorem softmax_singleton (x : Fin 1 → ℝ) (j : Fin 1) : softmax x j = 1 := by
  have hj : j = 0 := Subsingleton.elim j 0
  subst hj
  simp only [softmax, Fin.sum_univ_one]
  rw [div_self (Real.exp_ne_zero (x 0))]

theorem softmax_zero_two (j : Fin 2) : softmax (fun _ : Fin 2 => (0 : ℝ)) j = 1 / 2 := by
  simp [softmax, Fin.sum_univ_two, Real.exp_zero]

theorem layerNorm_zero_gamma {n : ℕ} (eps : ℝ) (bb x : Fin n → ℝ) :
    layerNorm eps (fun _ => 0) bb x = bb := by
  funext j
  simp [layerNorm]

/-- A layer norm with unit weight and zero bias maps `t * (1, -1)` to
`(t / sqrt (t^2 + eps)) * (1, -1)`. -/
theorem layerNorm_pair (eps t : ℝ) :
    layerNorm eps (fun _ => 1) (fun _ => 0) (fun j => t * baseVec j)
      = fun j => (t / Real.sqrt (t ^ 2 + eps)) * baseVec j := by
  funext j
  simp only [layerNorm, Fin.sum_univ_two, baseVec_zero, baseVec_one]
  have hm : (t * 1 + t * -1) / ((2 : ℕ) : ℝ) = 0 := by norm_num
  rw [hm]
  have hv : ((t * 1 - 0) ^ 2 + (t * -1 - 0) ^ 2) / ((2 : ℕ) : ℝ) = t ^ 2 := by
    push_cast; ring
  rw [hv]
  have hc : ∀ c : Fin 2, t * baseVec c - 0 = t * baseVec c := fun c => by ring
  rw [hc j]
  rw [mul_one, add_zero]
  ring

/-- The transpose-for-scores read back at merged coordinates is the original
feature read. -/
theorem transposeForScores_merge {B L nheads dh : ℕ}
    (x : Fin B → Fin L → Fin (nheads * dh) → ℝ) (b : Fin B) (t : Fin L)
    (z : Fin (nheads * dh)) (hq : (z : ℕ) / dh < nheads) (hr : (z : ℕ) % dh < dh) :
    transposeForScores x b ⟨(z : ℕ) / dh, hq⟩ t ⟨(z : ℕ) % dh, hr⟩ = x b t z := by
  simp only [transposeForScores]
  congr 1
  refine Fin.ext ?_
  show (z : ℕ) / dh * dh + (z : ℕ) % dh = (z : ℕ)
  rw [Nat.mul_comm]
  exact Nat.div_add_mod (z : ℕ) dh

theorem concatSeq_const {α : Type} {m n : ℕ} (c : α) :
    concatSeq (fun _ : Fin m => c) (fun _ : Fin n => c) = fun _ => c := by
  funext i
  unfold concatSeq
  split <;> rfl

/-- The self-attention parameters of the `c5` construction: zero query and
key projections (so all streams have uniform attention), identity value
projection, one head of size 2. -/
noncomputable def c5SA : LukeSelfAttentionParams (1 * 2) 1 2 :=
  ⟨zeroLin (1 * 2) (1 * 2), zeroLin (1 * 2) (1 * 2), idLin2,
   zeroLin (1 * 2) (1 * 2), zeroLin (1 * 2) (1 * 2), zeroLin (1 * 2) (1 * 2)⟩

/-- The single encoder layer of the `c5` construction: identity dense in the
attention output with unit layer norm, zero feed-forward. -/
noncomputable def c5Layer : LukeLayerParams 1 2 1 :=
  ⟨c5SA, ⟨idLin2, fun _ => 1, fun _ => 0⟩,
   ⟨zeroLin (1 * 2) 1, fun x => x⟩,
   ⟨zeroLin 1 (1 * 2), fun _ => 1, fun _ => 0⟩⟩

/-- Word embeddings of the `c5` construction: zero layer-norm weight, bias
`(1, -1)`, so the word embedding output is constantly `(1, -1)`. -/
noncomputable def c5WordEmb : WordEmbeddingsParams 2 1 1 (1 * 2) :=
  ⟨fun _ _ => 0, fun _ _ => 0, fun _ _ => 0, fun _ => 0, baseVec⟩

/-- Entity embeddings of the `c5` construction: zero layer-norm weight, bias
`(3, -3)`. -/
noncomputable def c5EntityEmb : EntityEmbeddingsParams 2 2 1 1 (1 * 2) :=
  ⟨fun _ _ => 0, fun _ _ => 0, fun _ _ => 0, fun _ _ => 0,
   fun _ => 0, fun j => 3 * baseVec j⟩

/-- The `c5` base model: one layer, pad ids `0`. -/
noncomputable def c5Luke : LukeModelParams 2 1 1 2 2 1 2 1 :=
  ⟨0, 0, c5WordEmb, c5EntityEmb, [c5Layer], zeroLin (1 * 2) (1 * 2)⟩

/-- Word input ids of the `c5` construction (id `1`, distinct from the pad). -/
def c5Ids : Fin 1 → Fin 1 → Fin 2 := fun _ _ => 1

/-- Word token-type ids of the `c5` construction. -/
def c5TT : Fin 1 → Fin 1 → Fin 1 := fun _ _ => 0

/-- Word position ids of the `c5` construction. -/
def c5Pos : Fin 1 → Fin 1 → Fin 1 := fun _ _ => 0

/-- Entity inputs of the `c5` construction (entity id `1`, distinct from the
entity pad). -/
def c5Einp : EntityInputs 1 1 1 2 1 := ⟨fun _ _ => 1, fun _ _ _ => 0, none, none⟩

/-- Layer norm of `t * (1, -1)` at the module's epsilon. -/
noncomputable def lnPair (t : ℝ) : ℝ := t / Real.sqrt (t ^ 2 + layer_norm_eps)

theorem c5_wordEmb :
    lukeEmbeddingsForward c5WordEmb c5Ids c5TT c5Pos = fun _ _ => baseVec := by
  funext b t
  exact layerNorm_zero_gamma _ _ _

theorem c5_entityEmb :
    entityEmbeddingsForward c5EntityEmb c5Einp.ids c5Einp.position_ids
      c5Einp.token_type_ids = fun _ _ j => 3 * baseVec j := by
  funext b ee
  exact layerNorm_zero_gamma _ _ _

theorem c5_wordMask :
    processWordAttentionMask 0 c5Ids (none : Option (Fin 1 → Fin 1 → ℝ))
      = fun _ _ => 0 := by
  funext b k
  show (if ((1 : Fin 2) : ℕ) = 0 then (1 : ℝ) else 0) * (-1e4) = 0
  norm_num

theorem c5_entityMask :
    processEntityAttentionMask 0 c5Einp.ids (none : Option (Fin 1 → Fin 1 → ℝ))
      = fun _ _ => 0 := by
  funext b k
  show (if ((1 : Fin 2) : ℕ) = 0 then (1 : ℝ) else 0) * (-1e4) = 0
  norm_num

/-- The constant word states of the `c5` construction. -/
noncomputable def c5W : Fin 1 → Fin 1 → Fin (1 * 2) → ℝ := fun _ _ => baseVec

/-- The constant entity states of the `c5` construction. -/
noncomputable def c5E : Fin 1 → Fin 1 → Fin (1 * 2) → ℝ := fun _ _ j => 3 * baseVec j

/-- The processed zero word-only attention mask of the `c5` construction. -/
noncomputable def c5MaskN : Option (Fin 1 → Fin 1 → ℝ) := some (fun _ _ => 0)

/-- The processed zero concatenated attention mask of the `c5` construction. -/
noncomputable def c5MaskE : Option (Fin 1 → Fin (1 + 1) → ℝ) := some (fun _ _ => 0)

theorem c5_selfAttnN : lukeSelfAttentionForwardN c5SA c5W c5MaskN = c5W := by
  funext b i z
  simp only [lukeSelfAttentionForwardN, mergeHeads, contextLayer]
  rw [Fin.sum_univ_one]
  have hprob : ∀ (hh : Fin 1) (j : Fin 1),
      attentionProbsN c5SA c5W c5MaskN b hh i j = 1 :=
    fun hh j => softmax_singleton _ j
  rw [hprob, one_mul]
  unfold valueLayerN
  rw [transposeForScores_merge]
  exact linApply_idLin2 baseVec z

theorem c5_attnN :
    lukeAttentionForwardN c5Layer c5W c5MaskN = fun _ _ j => lnPair 2 * baseVec j := by
  unfold lukeAttentionForwardN
  rw [show c5Layer.selfAttn = c5SA from rfl, c5_selfAttnN]
  funext b t
  unfold denseLnForward
  rw [show c5Layer.attnOutput.dense = idLin2 from rfl]
  simp only [linApply_idLin2]
  have hx : (fun j : Fin (1 * 2) => c5W b t j + c5W b t j) = fun j => 2 * baseVec j :=
    funext fun j => by show baseVec j + baseVec j = 2 * baseVec j; ring
  rw [hx]
  exact layerNorm_pair layer_norm_eps 2

theorem c5_layerN :
    lukeLayerForwardN c5Layer c5W c5MaskN
      = fun _ _ j => lnPair (lnPair 2) * baseVec j := by
  unfold lukeLayerForwardN feedForwardChunk
  rw [c5_attnN]
  funext b t
  unfold denseLnForward
  rw [show c5Layer.output.dense = zeroLin 1 (1 * 2) from rfl]
  simp only [linApply_zeroLin, zero_add]
  exact layerNorm_pair layer_norm_eps (lnPair 2)

theorem c5_modelN :
    (lukeModelForwardN c5Luke c5Ids c5TT c5Pos none).1
      = fun _ _ j => lnPair (lnPair 2) * baseVec j := by
  show lukeEncoderForwardN c5Luke.encoder
      (lukeEmbeddingsForward c5Luke.embeddings c5Ids c5TT c5Pos)
      (some (processWordAttentionMask c5Luke.pad_token_id c5Ids none)) = _
  rw [show c5Luke.encoder = [c5Layer] from rfl,
    show c5Luke.embeddings = c5WordEmb from rfl,
    show c5Luke.pad_token_id = 0 from rfl,
    c5_wordEmb, c5_wordMask]
  show lukeLayerForwardN c5Layer (fun _ _ => baseVec) (some fun _ _ => 0) = _
  exact c5_layerN

theorem c5_scoresE (b : Fin 1) (h : Fin 1) (i j : Fin (1 + 1)) :
    attentionScoresE c5SA c5W c5E b h i j = 0 := by
  have h1 : ∀ (i' j' : Fin 1), w2wAttentionScores c5SA c5W c5E b h i' j' = 0 := by
    intro i' j'
    unfold w2wAttentionScores matmulNT w2wQueryLayer transposeForScores linRows
    simp [c5SA, linApply_zeroLin]
  have h2 : ∀ (i' j' : Fin 1), w2eAttentionScores c5SA c5W c5E b h i' j' = 0 := by
    intro i' j'
    unfold w2eAttentionScores matmulNT w2eQueryLayer transposeForScores linRows
    simp [c5SA, linApply_zeroLin]
  have h3 : ∀ (i' j' : Fin 1), e2wAttentionScores c5SA c5W c5E b h i' j' = 0 := by
    intro i' j'
    unfold e2wAttentionScores matmulNT e2wQueryLayer transposeForScores linRows
    simp [c5SA, linApply_zeroLin]
  have h4 : ∀ (i' j' : Fin 1), e2eAttentionScores c5SA c5W c5E b h i' j' = 0 := by
    intro i' j'
    unfold e2eAttentionScores matmulNT e2eQueryLayer transposeForScores linRows
    simp [c5SA, linApply_zeroLin]
  unfold attentionScoresE wordAttentionScores entityAttentionScores
  unfold concatSeq
  split
  · dsimp only
    split
    · exact h1 _ _
    · exact h2 _ _
  · dsimp only
    split
    · exact h3 _ _
    · exact h4 _ _

theorem c5_probsE (b : Fin 1) (h : Fin 1) (i j : Fin (1 + 1)) :
    attentionProbsE c5SA c5W c5E c5MaskE b h i j = 1 / 2 := by
  have hms : maskedScores (scaledScores 2 (attentionScoresE c5SA c5W c5E)) c5MaskE
      = fun _ _ _ _ => 0 := by
    funext b' h' i' j'
    show attentionScoresE c5SA c5W c5E b' h' i' j' / Real.sqrt ((2 : ℕ) : ℝ) + 0 = 0
    rw [c5_scoresE, zero_div, add_zero]
  show softmax ((maskedScores (scaledScores 2 (attentionScoresE c5SA c5W c5E))
    c5MaskE) b h i) j = 1 / 2
  rw [hms]
  exact softmax_zero_two j

theorem c5_selfAttnE_word :
    (lukeSelfAttentionForwardE c5SA c5W c5E c5MaskE).1
      = fun _ _ z => 2 * baseVec z := by
  have hmerged : contextMergedE c5SA c5W c5E c5MaskE = fun _ _ z => 2 * baseVec z := by
    funext b i z
    simp only [contextMergedE, mergeHeads, contextLayer]
    have hsum2 : ∀ f : Fin (1 + 1) → ℝ, (∑ j, f j) = f 0 + f 1 :=
      fun f => Fin.sum_univ_two f
    rw [hsum2]
    rw [c5_probsE, c5_probsE]
    unfold valueLayerE
    rw [transposeForScores_merge, transposeForScores_merge]
    have hv0 : linRows c5SA.value (concatHiddenStates c5W c5E) b 0 z = baseVec z := by
      show linApply c5SA.value (concatHiddenStates c5W c5E b 0) z = baseVec z
      have hc0 : concatHiddenStates c5W c5E b 0 = baseVec := rfl
      rw [hc0]
      exact linApply_idLin2 baseVec z
    have hv1 : linRows c5SA.value (concatHiddenStates c5W c5E) b 1 z
        = 3 * baseVec z := by
      show linApply c5SA.value (concatHiddenStates c5W c5E b 1) z = 3 * baseVec z
      have hc1 : concatHiddenStates c5W c5E b 1 = fun j => 3 * baseVec j := rfl
      rw [hc1]
      exact linApply_idLin2 (fun j => 3 * baseVec j) z
    rw [hv0, hv1]
    ring
  show (fun b => sliceLow (contextMergedE c5SA c5W c5E c5MaskE b)) = _
  rw [hmerged]
  rfl

theorem c5_attnE_word :
    (lukeAttentionForwardE c5Layer c5W c5E c5MaskE).1
      = fun _ _ j => lnPair 3 * baseVec j := by
  funext b i
  show denseLnForward c5Layer.attnOutput
      (fun bb => concatSeq ((lukeSelfAttentionForwardE c5SA c5W c5E c5MaskE).1 bb)
        ((lukeSelfAttentionForwardE c5SA c5W c5E c5MaskE).2 bb))
      (concatHiddenStates c5W c5E) b (Fin.castAdd 1 i) = fun j => lnPair 3 * baseVec j
  unfold denseLnForward
  rw [show (fun bb => concatSeq ((lukeSelfAttentionForwardE c5SA c5W c5E c5MaskE).1 bb)
      ((lukeSelfAttentionForwardE c5SA c5W c5E c5MaskE).2 bb)) b (Fin.castAdd 1 i)
    = (lukeSelfAttentionForwardE c5SA c5W c5E c5MaskE).1 b i from
    concatSeq_castAdd _ _ i]
  rw [c5_selfAttnE_word]
  rw [show concatHiddenStates c5W c5E b (Fin.castAdd 1 i) = c5W b i from
    concatSeq_castAdd _ _ i]
  rw [show c5Layer.attnOutput.dense = idLin2 from rfl]
  simp only [linApply_idLin2]
  have hx : (fun j : Fin (1 * 2) => 2 * baseVec j + c5W b i j)
      = fun j => 3 * baseVec j :=
    funext fun j => by show 2 * baseVec j + baseVec j = 3 * baseVec j; ring
  rw [hx]
  exact layerNorm_pair layer_norm_eps 3

theorem c5_layerE_word :
    (lukeLayerForwardE c5Layer c5W c5E c5MaskE).1
      = fun _ _ j => lnPair (lnPair 3) * baseVec j := by
  funext b i
  show feedForwardChunk c5Layer
      (fun bb => concatSeq ((lukeAttentionForwardE c5Layer c5W c5E c5MaskE).1 bb)
        ((lukeAttentionForwardE c5Layer c5W c5E c5MaskE).2 bb))
      b (Fin.castAdd 1 i) = fun j => lnPair (lnPair 3) * baseVec j
  unfold feedForwardChunk denseLnForward
  rw [show (fun bb => concatSeq ((lukeAttentionForwardE c5Layer c5W c5E c5MaskE).1 bb)
      ((lukeAttentionForwardE c5Layer c5W c5E c5MaskE).2 bb)) b (Fin.castAdd 1 i)
    = (lukeAttentionForwardE c5Layer c5W c5E c5MaskE).1 b i from
    concatSeq_castAdd _ _ i]
  rw [c5_attnE_word]
  rw [show c5Layer.output.dense = zeroLin 1 (1 * 2) from rfl]
  simp only [linApply_zeroLin, zero_add]
  exact layerNorm_pair layer_norm_eps (lnPair 3)

theorem c5_modelE_word :
    (lukeModelForwardE c5Luke c5Ids c5TT c5Pos none c5Einp).1
      = fun _ _ j => lnPair (lnPair 3) * baseVec j := by
  show (lukeEncoderForwardE c5Luke.encoder
      (lukeEmbeddingsForward c5Luke.embeddings c5Ids c5TT c5Pos)
      (entityEmbeddingsForward c5Luke.entity_embeddings c5Einp.ids
        c5Einp.position_ids c5Einp.token_type_ids)
      (some (fun b => concatSeq
        (processWordAttentionMask c5Luke.pad_token_id c5Ids none b)
        (processEntityAttentionMask c5Luke.entity_pad_token_id c5Einp.ids
          c5Einp.attention_mask b)))).1 = _
  rw [show c5Luke.encoder = [c5Layer] from rfl,
    show c5Luke.embeddings = c5WordEmb from rfl,
    show c5Luke.entity_embeddings = c5EntityEmb from rfl,
    show c5Luke.pad_token_id = 0 from rfl,
    show c5Luke.entity_pad_token_id = 0 from rfl,
    show c5Einp.attention_mask = none from rfl,
    c5_wordEmb, c5_entityEmb, c5_wordMask, c5_entityMask]
  show (lukeLayerForwardE c5Layer (fun _ _ => baseVec) (fun _ _ j => 3 * baseVec j)
    (some (fun b => concatSeq ((fun _ _ => (0 : ℝ)) b) ((fun _ _ => (0 : ℝ)) b)))).1 = _
  rw [show (fun b : Fin 1 => concatSeq ((fun _ _ => (0 : ℝ)) b)
      ((fun _ _ => (0 : ℝ)) b)) = fun _ (_ : Fin (1 + 1)) => (0 : ℝ) from
    funext fun b => concatSeq_const 0]
  exact c5_layerE_word

theorem layer_norm_eps_pos : (0 : ℝ) < layer_norm_eps := by
  norm_num [layer_norm_eps]

theorem lnPair_pos {t : ℝ} (ht : 0 < t) : 0 < lnPair t := by
  unfold lnPair
  apply div_pos ht
  apply Real.sqrt_pos.mpr
  nlinarith [layer_norm_eps_pos]

theorem lnPair_strictMono {a b : ℝ} (ha : 0 ≤ a) (hab : a < b) :
    lnPair a < lnPair b := by
  unfold lnPair
  have heps := layer_norm_eps_pos
  have hb : 0 < b := lt_of_le_of_lt ha hab
  have hsa : 0 < Real.sqrt (a ^ 2 + layer_norm_eps) :=
    Real.sqrt_pos.mpr (by nlinarith)
  have hsb : 0 < Real.sqrt (b ^ 2 + layer_norm_eps) :=
    Real.sqrt_pos.mpr (by nlinarith)
  rw [div_lt_div_iff hsa hsb]
  have hab2 : a ^ 2 < b ^ 2 := by nlinarith
  have hsq : (a * Real.sqrt (b ^ 2 + layer_norm_eps)) ^ 2
      < (b * Real.sqrt (a ^ 2 + layer_norm_eps)) ^ 2 := by
    rw [mul_pow, mul_pow, Real.sq_sqrt (by nlinarith), Real.sq_sqrt (by nlinarith)]
    nlinarith [mul_lt_mul_of_pos_right hab2 heps]
  have h1 : 0 ≤ b * Real.sqrt (a ^ 2 + layer_norm_eps) := by positivity
  exact lt_of_pow_lt_pow_left 2 h1 hsq

/-- Claim C5: word tokens and entity mentions are jointly contextualized:
there are parameter settings and two calls of `LukeModel.forward` that agree
on all word-side arguments (`input_ids`, `token_type_ids`, `position_ids`,
`attention_mask`) and differ only in their entity-side arguments (entity
inputs present versus absent) for which the returned `word_hidden_state`
differs — the word-token outputs are not independent of the entity inputs. -/
theorem c5_joint_contextualization :
    ∃ (nheads dh I vocab typeVocab maxPos entityVocab embSize B Lw Le P : ℕ)
      (p : LukeModelParams vocab typeVocab maxPos entityVocab embSize nheads dh I)
      (inputIds : Fin B → Fin Lw → Fin vocab)
      (tokenTypeIds : Fin B → Fin Lw → Fin typeVocab)
      (positionIds : Fin B → Fin Lw → Fin maxPos)
      (attentionMask? : Option (Fin B → Fin Lw → ℝ))
      (einp : EntityInputs B Le P entityVocab typeVocab),
      (lukeModelForward p inputIds tokenTypeIds positionIds attentionMask?
          (some einp)).1
        ≠ (lukeModelForward p inputIds tokenTypeIds positionIds attentionMask?
            (none : Option (EntityInputs B Le P entityVocab typeVocab))).1 := by
  refine ⟨1, 2, 1, 2, 1, 1, 2, 2, 1, 1, 1, 1, c5Luke, c5Ids, c5TT, c5Pos,
    none, c5Einp, ?_⟩
  intro hEq
  have h1 : (lukeModelForward c5Luke c5Ids c5TT c5Pos none (some c5Einp)).1
      = fun _ _ j => lnPair (lnPair 3) * baseVec j := c5_modelE_word
  have h2 : (lukeModelForward c5Luke c5Ids c5TT c5Pos none
      (none : Option (EntityInputs 1 1 1 2 1))).1
      = fun _ _ j => lnPair (lnPair 2) * baseVec j := c5_modelN
  rw [h1, h2] at hEq
  have hval := congrFun (congrFun (congrFun hEq 0) 0) 0
  simp only [baseVec_zero, mul_one] at hval
  have hlt : lnPair (lnPair 2) < lnPair (lnPair 3) :=
    lnPair_strictMono (le_of_lt (lnPair_pos two_pos))
      (lnPair_strictMono (by norm_num) (by norm_num))
  exact absurd hval (ne_of_gt hlt)

end LukeProof
